import Mathlib

/-
Verification development for the odooExternalApiConnector repository
(src/odoo_external_api_connector.py).

The connector is embedded shallowly: Python values that flow through the
connector are modelled by the inductive type PyVal; every remote XML-RPC
interaction is a call descriptor (RCall) answered by an oracle (the remote
server), which either returns a payload or raises (Except.error).  The
connector instance is the structure Conn; a computation threads a state St
holding the instance and the trace of remote calls issued so far.  A public
operation returns `Except String Envelope`: `.ok env` models the Python
method returning its result dictionary, `.error e` models a Python
exception escaping the method uncaught.
-/

/-- Python values marshalled over XML-RPC, as used by the connector. -/
inductive PyVal where
  | none : PyVal
  | bool (b : Bool) : PyVal
  | int (n : Int) : PyVal
  | str (s : String) : PyVal
  | list (xs : List PyVal) : PyVal
  | dict (kvs : List (String × PyVal)) : PyVal

/-- Python truthiness for PyVal (used by `if not perm_check`, `if not id`). -/
def pyFalsy : PyVal → Bool
  | .none => true
  | .bool b => !b
  | .int n => n == 0
  | .str s => s == ""
  | .list xs => xs.isEmpty
  | .dict kvs => kvs.isEmpty

/-- Python truthiness of an optional string parameter
(`if self.db:`, `if model_name:`). -/
def pyTruthyStr : Option String → Bool
  | some s => s != ""
  | Option.none => false

/-- A single-quote character, used to spell the connector's message texts. -/
def sqc : String := String.mk [Char.ofNat 39]

/-- One remote interaction issued by the connector. -/
inductive RCall where
  | version : RCall
  | listDb : RCall
  | auth (db : PyVal) (user pw : Option String) : RCall
  | executeKw (db : PyVal) (uid : PyVal) (pw : Option String)
      (model meth : String) (args : PyVal)
      (kwargs : List (String × PyVal)) : RCall

/-- The remote server: a response (payload or raised fault) for the n-th
call issued in this session, n being the number of calls already made. -/
abbrev Oracle := Nat → RCall → Except String PyVal

/-- The connector instance (`__init__` fields). -/
structure Conn where
  url : Option String
  host : String
  db : Option String
  username : Option String
  password : Option String
  uid : PyVal

/-- `__init__`: host falls back to "localhost:8069" when the parameter is
falsy, uid starts as None. -/
def mkConn (url host db username password : Option String) : Conn :=
  { url := url
    host := if pyTruthyStr host then host.getD "" else "localhost:8069"
    db := db
    username := username
    password := password
    uid := PyVal.none }

/-- `_get_host`: the full url if truthy, else host. -/
def getHost (c : Conn) : String :=
  match c.url with
  | some u => if u = "" then c.host else u
  | Option.none => c.host

/-- Execution state: the connector instance plus the trace of remote calls
issued so far. -/
structure St where
  conn : Conn
  trace : List RCall

/-- Start state of a public call on a given instance. -/
def mkSt (c : Conn) : St := ⟨c, []⟩

/-- Issue one remote call: the oracle answers the call at the current
position in the trace, and the call is recorded. -/
def remote (ω : Oracle) (s : St) (c : RCall) : Except String PyVal × St :=
  (ω s.trace.length c, ⟨s.conn, s.trace ++ [c]⟩)

def connErrMsg : String := "Can" ++ sqc ++ "t connect to Odoo server."

def authErrMsg : String :=
  "Can" ++ sqc ++ "t connect to the database using credentials provided."

def noDbMsg : String := "No database exists on the server."

def invalidCredMsg : String := "Username/password are not valid."

/-- `_check_model_access` permission-denied message for one right. -/
def permErrMsg (r : String) : String :=
  "The model does not exist or you do not have a permission to " ++ sqc ++ r
    ++ sqc ++ " it."

def modelNameReqMsg : String := "Model name is required."

def noUpdateMsg : String := "No records to update."

def noDeleteMsg : String := "No records to delete."

def fmtListMsg : String :=
  "Incorrect fields format. Should be a list of dictionaries."

def fmtFieldMsg : String :=
  "Wrong format of a field attributes. Should be dictionary of key-value pairs."

def notCreatedMsg : String := "The model was not created."

/-- repr of the AttributeError raised if a method is invoked on a None
model proxy (reachable only with an empty access scope). -/
def attrErrMsg : String :=
  "AttributeError(" ++ sqc ++ "NoneType object has no attribute execute_kw"
    ++ sqc ++ ")"

/-- The TypeError raised by `re.match` when a field descriptor carries a
non-string name value; it is not caught anywhere in `create_model`. -/
def typeErrMsg : String :=
  "TypeError: expected string or bytes-like object"

/-- `_create_connection`: probe the common endpoint with `version()`.
Returns (error, connection-present); the version payload is unused
downstream. -/
def createConnection (ω : Oracle) (s : St) : (Option String × Bool) × St :=
  match remote ω s RCall.version with
  | (.ok _, s2) => ((Option.none, true), s2)
  | (.error _, s2) => ((some connErrMsg, false), s2)

/-- The iteration of `_authenticate`'s fallback loop over the enumerated
databases: on the first non-raising attempt the uid is stored and the loop
breaks with no error; each raising attempt overwrites the error with the
constant credentials message and continues. -/
def authLoop (ω : Oracle) (user pw : Option String) :
    St → Option String → PyVal → List PyVal → (Option String × PyVal) × St
  | s, err, cdb, [] => ((err, cdb), s)
  | s, _, cdb, d :: rest =>
    match remote ω s (RCall.auth d user pw) with
    | (.ok v, s2) => ((Option.none, d), ⟨{ s2.conn with uid := v }, s2.trace⟩)
    | (.error _, s2) => authLoop ω user pw s2 (some authErrMsg) cdb rest

/-- `_authenticate` when no database name is configured: enumerate the
databases (`_get_db_name`, whose transport faults propagate uncaught) and
fall back over them.  The xmlrpc `list()` payload is an array; a non-array
payload would make the Python `for` raise, modelled as an escaping
TypeError. -/
def authViaEnum (ω : Oracle) (s : St) :
    Except String (Option String × PyVal) × St :=
  match remote ω s RCall.listDb with
  | (.error e, s2) => (.error e, s2)
  | (.ok (.list dbs), s2) =>
    if dbs.isEmpty then (.ok (some noDbMsg, PyVal.none), s2)
    else
      match authLoop ω s2.conn.username s2.conn.password s2 Option.none
          PyVal.none dbs with
      | ((err, cdb), s3) => (.ok (err, cdb), s3)
  | (.ok _, s2) => (.error typeErrMsg, s2)

/-- `_authenticate`.  Returns the envelope `(error, connected db)` exactly
as the Python dict `{"error": ..., "db": ...}`; `.error` means a raised
exception escaped (possible only through `_get_db_name`). -/
def authenticate (ω : Oracle) (s : St) :
    Except String (Option String × PyVal) × St :=
  match createConnection ω s with
  | ((some e, _), s2) => (.ok (some e, PyVal.none), s2)
  | ((Option.none, _), s2) =>
    match s2.conn.db with
    | some d =>
      if d = "" then authViaEnum ω s2
      else
        match remote ω s2 (RCall.auth (.str d) s2.conn.username
            s2.conn.password) with
        | (.ok v, s3) =>
          (.ok (Option.none, .str d), ⟨{ s3.conn with uid := v }, s3.trace⟩)
        | (.error _, s3) => (.ok (some authErrMsg, PyVal.none), s3)
    | Option.none => authViaEnum ω s2

/-- The outcome of `_check_model_access`: the fields of the returned dict
`{"error": ..., "model": ..., "db": ...}` (the model proxy is modelled by
its presence). -/
structure Cursor where
  error : Option String
  model : Bool
  db : PyVal

/-- The `check_access_rights` soft-fail probe for one access right. -/
def chkCall (adb uid : PyVal) (pw : Option String) (mname r : String) : RCall :=
  RCall.executeKw adb uid pw mname "check_access_rights" (.list [.str r])
    [("raise_exception", .bool false)]

/-- The `for access_right in access_scope` loop of `_check_model_access`:
a falsy `check_access_rights` payload records the permission message and
breaks; a truthy payload stores the proxy (without clearing any recorded
error); a raised call records the invalid-credentials message and, having
no break, continues with the next right. -/
def chkLoop (ω : Oracle) (adb : PyVal) (pw : Option String) (mname : String) :
    St → Option String → Bool → List String → (Option String × Bool) × St
  | s, err, mdl, [] => ((err, mdl), s)
  | s, err, mdl, r :: rest =>
    match remote ω s (chkCall adb s.conn.uid pw mname r) with
    | (.ok v, s2) =>
      if pyFalsy v then ((some (permErrMsg r), mdl), s2)
      else chkLoop ω adb pw mname s2 err true rest
    | (.error _, s2) => chkLoop ω adb pw mname s2 (some invalidCredMsg) mdl rest

/-- `_check_model_access`. -/
def checkModelAccess (ω : Oracle) (s : St) (mname : String)
    (scope : List String) : Except String Cursor × St :=
  match authenticate ω s with
  | (.error e, s2) => (.error e, s2)
  | (.ok (some e, adb), s2) => (.ok ⟨some e, false, adb⟩, s2)
  | (.ok (Option.none, adb), s2) =>
    match chkLoop ω adb s2.conn.password mname s2 Option.none false scope with
    | ((err, mdl), s3) => (.ok ⟨err, mdl, adb⟩, s3)

/-- The result dictionary of every public operation: the "error" entry and
the operation's primary result entry (ids / records / count / fields / id). -/
structure Envelope where
  error : Option String
  primary : PyVal

/-- `get_ids`. -/
def get_ids (ω : Oracle) (s : St) (mname : Option String) (filt : PyVal)
    (offset limit : Int) : Except String Envelope × St :=
  if pyTruthyStr mname then
    let mn := mname.getD ""
    match checkModelAccess ω s mn ["read"] with
    | (.error e, s2) => (.error e, s2)
    | (.ok cur, s2) =>
      match cur.error with
      | some e => (.ok ⟨some e, PyVal.none⟩, s2)
      | Option.none =>
        if cur.model then
          match remote ω s2 (RCall.executeKw cur.db s2.conn.uid
              s2.conn.password mn "search" (.list [filt])
              [("offset", .int offset), ("limit", .int limit)]) with
          | (.ok v, s3) => (.ok ⟨Option.none, v⟩, s3)
          | (.error e, s3) => (.ok ⟨some e, PyVal.none⟩, s3)
        else (.ok ⟨some attrErrMsg, PyVal.none⟩, s2)
  else (.ok ⟨some modelNameReqMsg, PyVal.none⟩, s)

/-- `get_records`.  The criteria dict restricts the field names only when
the fields argument is non-empty. -/
def get_records (ω : Oracle) (s : St) (mname : Option String) (filt : PyVal)
    (offset limit : Int) (fields : List PyVal) : Except String Envelope × St :=
  if pyTruthyStr mname then
    let mn := mname.getD ""
    match checkModelAccess ω s mn ["read"] with
    | (.error e, s2) => (.error e, s2)
    | (.ok cur, s2) =>
      match cur.error with
      | some e => (.ok ⟨some e, PyVal.none⟩, s2)
      | Option.none =>
        if cur.model then
          match remote ω s2 (RCall.executeKw cur.db s2.conn.uid
              s2.conn.password mn "search_read" (.list [filt])
              (if fields.isEmpty then
                [("offset", .int offset), ("limit", .int limit)]
               else
                [("offset", .int offset), ("limit", .int limit),
                 ("fields", .list fields)])) with
          | (.ok v, s3) => (.ok ⟨Option.none, v⟩, s3)
          | (.error e, s3) => (.ok ⟨some e, PyVal.none⟩, s3)
        else (.ok ⟨some attrErrMsg, PyVal.none⟩, s2)
  else (.ok ⟨some modelNameReqMsg, PyVal.none⟩, s)

/-- `get_count`. -/
def get_count (ω : Oracle) (s : St) (mname : Option String) (filt : PyVal) :
    Except String Envelope × St :=
  if pyTruthyStr mname then
    let mn := mname.getD ""
    match checkModelAccess ω s mn ["read"] with
    | (.error e, s2) => (.error e, s2)
    | (.ok cur, s2) =>
      match cur.error with
      | some e => (.ok ⟨some e, PyVal.none⟩, s2)
      | Option.none =>
        if cur.model then
          match remote ω s2 (RCall.executeKw cur.db s2.conn.uid
              s2.conn.password mn "search_count" (.list [filt]) []) with
          | (.ok v, s3) => (.ok ⟨Option.none, v⟩, s3)
          | (.error e, s3) => (.ok ⟨some e, PyVal.none⟩, s3)
        else (.ok ⟨some attrErrMsg, PyVal.none⟩, s2)
  else (.ok ⟨some modelNameReqMsg, PyVal.none⟩, s)

/-- `get_fields`. -/
def get_fields (ω : Oracle) (s : St) (mname : Option String)
    (attributes : List PyVal) : Except String Envelope × St :=
  if pyTruthyStr mname then
    let mn := mname.getD ""
    match checkModelAccess ω s mn ["read"] with
    | (.error e, s2) => (.error e, s2)
    | (.ok cur, s2) =>
      match cur.error with
      | some e => (.ok ⟨some e, PyVal.none⟩, s2)
      | Option.none =>
        if cur.model then
          match remote ω s2 (RCall.executeKw cur.db s2.conn.uid
              s2.conn.password mn "fields_get" (.list [])
              [("attributes", .list attributes)]) with
          | (.ok v, s3) => (.ok ⟨Option.none, v⟩, s3)
          | (.error e, s3) => (.ok ⟨some e, PyVal.none⟩, s3)
        else (.ok ⟨some attrErrMsg, PyVal.none⟩, s2)
  else (.ok ⟨some modelNameReqMsg, PyVal.none⟩, s)

/-- Single-character `str.replace`, as used by the connector
(`replace(".", "_")`, `replace(" ", "_")`). -/
def replChar (a b : Char) (s : String) : String :=
  String.mk (s.toList.map (fun c => if c = a then b else c))

/-- Python `str.lower()` (the connector's names are ASCII). -/
def lowerStr (s : String) : String :=
  String.mk (s.toList.map Char.toLower)

/-- `model_name.split(".", 1)[0]`: the segment before the first dot (the
whole string when it has no dot). -/
def headSegment (s : String) : String :=
  String.mk (s.toList.takeWhile (fun c => c != Char.ofNat 46))

/-- Python `str.capitalize()`: first character uppercased, the rest
lowercased. -/
def pyCapitalize (s : String) : String :=
  match s.toList with
  | [] => ""
  | c :: cs => String.mk (c.toUpper :: cs.map Char.toLower)

/-- The name synthesized by `create_record` when its fields argument equals
the empty list: the segment of the model name before the first dot,
residual dots replaced by underscores, capitalized. -/
def synthRecordName (mn : String) : String :=
  "New " ++ pyCapitalize (replChar (Char.ofNat 46) (Char.ofNat 95) (headSegment mn))

/-- `create_record`.  Note the synthesis guard is `fields == []` — an empty
list — while the documented default argument is the empty dict `{}`. -/
def create_record (ω : Oracle) (s : St) (mname : Option String)
    (fields : PyVal) : Except String Envelope × St :=
  if pyTruthyStr mname then
    let mn := mname.getD ""
    match checkModelAccess ω s mn ["read", "create"] with
    | (.error e, s2) => (.error e, s2)
    | (.ok cur, s2) =>
      match cur.error with
      | some e => (.ok ⟨some e, PyVal.none⟩, s2)
      | Option.none =>
        let fv := match fields with
          | .list [] => PyVal.list [.dict [("name", .str (synthRecordName mn))]]
          | _ => fields
        if cur.model then
          match remote ω s2 (RCall.executeKw cur.db s2.conn.uid
              s2.conn.password mn "create" (.list [fv]) []) with
          | (.ok v, s3) => (.ok ⟨Option.none, v⟩, s3)
          | (.error e, s3) => (.ok ⟨some e, PyVal.none⟩, s3)
        else (.ok ⟨some attrErrMsg, PyVal.none⟩, s2)
  else (.ok ⟨some modelNameReqMsg, PyVal.none⟩, s)

/-- `update_record`. -/
def update_record (ω : Oracle) (s : St) (mname : Option String)
    (ids : List PyVal) (fields : PyVal) : Except String Envelope × St :=
  if pyTruthyStr mname then
    let mn := mname.getD ""
    match checkModelAccess ω s mn ["read", "write"] with
    | (.error e, s2) => (.error e, s2)
    | (.ok cur, s2) =>
      match cur.error with
      | some e => (.ok ⟨some e, PyVal.none⟩, s2)
      | Option.none =>
        if ids.isEmpty then (.ok ⟨some noUpdateMsg, PyVal.none⟩, s2)
        else
          match fields with
          | .dict [] => (.ok ⟨Option.none, .list ids⟩, s2)
          | _ =>
            if cur.model then
              match remote ω s2 (RCall.executeKw cur.db s2.conn.uid
                  s2.conn.password mn "write"
                  (.list [.list ids, fields]) []) with
              | (.ok _, s3) => (.ok ⟨Option.none, .list ids⟩, s3)
              | (.error e, s3) => (.ok ⟨some e, PyVal.none⟩, s3)
            else (.ok ⟨some attrErrMsg, PyVal.none⟩, s2)
  else (.ok ⟨some modelNameReqMsg, PyVal.none⟩, s)

/-- `delete_record`.  The success count is `len(ids)`, never the payload
returned by the server. -/
def delete_record (ω : Oracle) (s : St) (mname : Option String)
    (ids : List PyVal) : Except String Envelope × St :=
  if pyTruthyStr mname then
    let mn := mname.getD ""
    match checkModelAccess ω s mn ["read", "unlink"] with
    | (.error e, s2) => (.error e, s2)
    | (.ok cur, s2) =>
      match cur.error with
      | some e => (.ok ⟨some e, PyVal.int 0⟩, s2)
      | Option.none =>
        if ids.isEmpty then (.ok ⟨some noDeleteMsg, PyVal.int 0⟩, s2)
        else
          if cur.model then
            match remote ω s2 (RCall.executeKw cur.db s2.conn.uid
                s2.conn.password mn "unlink" (.list [.list ids]) []) with
            | (.ok _, s3) =>
              (.ok ⟨Option.none, .int (ids.length : Int)⟩, s3)
            | (.error e, s3) => (.ok ⟨some e, PyVal.int 0⟩, s3)
          else (.ok ⟨some attrErrMsg, PyVal.int 0⟩, s2)
  else (.ok ⟨some modelNameReqMsg, PyVal.int 0⟩, s)

/-- The regex test `re.match('^(x_).+', s)`: the string starts with "x_"
followed by at least one character matched by `.` (any character except a
newline). -/
def xMatch (s : String) : Bool :=
  match s.toList with
  | a :: b :: c :: _ => a == 'x' && b == '_' && c != Char.ofNat 10
  | _ => false

/-- The technical name derived in `create_model`: lowercase, spaces to
underscores, prefixed with "x_" unless the regex already matches. -/
def techName (mn : String) : String :=
  let xn := replChar (Char.ofNat 32) (Char.ofNat 95) (lowerStr mn)
  if xMatch xn then xn else "x_" ++ xn

/-- Lookup in a dict modelled as an association list (Python dict keys are
unique; on lists with duplicate keys the first occurrence wins). -/
def dictLookup (kvs : List (String × PyVal)) (k : String) : Option PyVal :=
  match kvs.find? (fun p => p.1 == k) with
  | some p => some p.2
  | Option.none => Option.none

/-- Python `d[k] = v`: overwrite in place if the key exists (keeping its
position), else append. -/
def dictSet (kvs : List (String × PyVal)) (k : String) (v : PyVal) :
    List (String × PyVal) :=
  if (dictLookup kvs k).isSome then
    kvs.map (fun p => if p.1 = k then (k, v) else p)
  else kvs ++ [(k, v)]

/-- Python `base.update(ov)`: keys already in base keep their position and
take ov's value; keys only in ov are appended in ov's order. -/
def dictUpdate (base ov : List (String × PyVal)) : List (String × PyVal) :=
  base.map (fun p =>
    match dictLookup ov p.1 with
    | some v => (p.1, v)
    | Option.none => p) ++
  ov.filter (fun p => (dictLookup base p.1).isNone)

/-- The tmp_field defaults synthesized for the i-th field descriptor. -/
def fieldDefaults (xn : String) (mid : PyVal) (i : Nat) :
    List (String × PyVal) :=
  [("model_id", mid), ("state", .str "manual"), ("ttype", .str "char"),
   ("name", .str (xn ++ "_field_" ++ toString i))]

/-- Processing of one valid (dict) field descriptor in `create_model`: a
caller-given name gets the "x_" prefix unless the regex matches, then the
caller dict is merged over the defaults.  A non-string name value makes
`re.match` raise TypeError (modelled as the none result). -/
def mergeField (xn : String) (mid : PyVal) (i : Nat)
    (kvs : List (String × PyVal)) : Option (List (String × PyVal)) :=
  match dictLookup kvs "name" with
  | Option.none => some (dictUpdate (fieldDefaults xn mid i) kvs)
  | some (.str nm) =>
    some (dictUpdate (fieldDefaults xn mid i)
      (dictSet kvs "name" (.str (if xMatch nm then nm else "x_" ++ nm))))
  | some _ => Option.none

/-- Pure specification of the descriptor loop on a list of valid
descriptors: the merged list, or none if some element is not a dict or
carries a non-string name. -/
def mergeAll (xn : String) (mid : PyVal) :
    Nat → List PyVal → Option (List PyVal)
  | _, [] => some []
  | i, .dict kvs :: rest =>
    match mergeField xn mid i kvs with
    | some m => (mergeAll xn mid (i + 1) rest).map (fun ms => PyVal.dict m :: ms)
    | Option.none => Option.none
  | _, _ :: _ => Option.none

/-- The compensating `unlink` of the created model record. -/
def unlinkCall (adb uidv : PyVal) (pw : Option String) (mid : PyVal) : RCall :=
  RCall.executeKw adb uidv pw "ir.model" "unlink" (.list [mid]) []

/-- Outcome of `create_model`'s descriptor loop. -/
inductive FieldLoopRes where
  | done (merged : List PyVal) : FieldLoopRes
  | badField : FieldLoopRes
  | raised (e : String) : FieldLoopRes

/-- `create_model`'s `for i, field in enumerate(fields)` loop.  A non-dict
element triggers the compensating unlink of the created model (a call made
outside any try block: if it raises, the exception escapes) and stops the
loop; a dict element is merged in place and processing continues. -/
def fieldLoop (ω : Oracle) (adb uidv : PyVal) (pw : Option String)
    (xn : String) (mid : PyVal) : St → Nat → List PyVal → FieldLoopRes × St
  | s, _, [] => (.done [], s)
  | s, i, f :: rest =>
    match f with
    | .dict kvs =>
      match mergeField xn mid i kvs with
      | some m =>
        match fieldLoop ω adb uidv pw xn mid s (i + 1) rest with
        | (.done ms, s2) => (.done (.dict m :: ms), s2)
        | other => other
      | Option.none => (.raised typeErrMsg, s)
    | _ =>
      match remote ω s (unlinkCall adb uidv pw mid) with
      | (.ok _, s2) => (.badField, s2)
      | (.error e, s2) => (.raised e, s2)

/-- `create_model`.  Two dependent remote creates with a compensating
unlink of the model on failure of the second; note that the bulk
field-creation call passes the merged descriptor list directly as the
positional-argument list, and that both compensating unlink calls run
outside any try block, so their faults escape uncaught. -/
def create_model (ω : Oracle) (s : St) (mname : Option String)
    (fields : PyVal) : Except String Envelope × St :=
  if pyTruthyStr mname then
    let mn := mname.getD ""
    match checkModelAccess ω s "ir.model" ["read", "create", "unlink"] with
    | (.error e, s2) => (.error e, s2)
    | (.ok cur, s2) =>
      match cur.error with
      | some e => (.ok ⟨some e, PyVal.none⟩, s2)
      | Option.none =>
        let xn := techName mn
        match fields with
        | .list fs =>
          if cur.model then
            match remote ω s2 (RCall.executeKw cur.db s2.conn.uid
                s2.conn.password "ir.model" "create"
                (.list [.dict [("name", .str mn), ("model", .str xn),
                  ("state", .str "manual")]]) []) with
            | (.error e, s3) => (.ok ⟨some e, PyVal.none⟩, s3)
            | (.ok idv, s3) =>
              if pyFalsy idv then (.ok ⟨some notCreatedMsg, PyVal.none⟩, s3)
              else
                if fs.isEmpty then (.ok ⟨Option.none, idv⟩, s3)
                else
                  match fieldLoop ω cur.db s3.conn.uid s3.conn.password xn
                      idv s3 0 fs with
                  | (.raised e, s4) => (.error e, s4)
                  | (.badField, s4) => (.ok ⟨some fmtFieldMsg, PyVal.none⟩, s4)
                  | (.done merged, s4) =>
                    match remote ω s4 (RCall.executeKw cur.db s4.conn.uid
                        s4.conn.password "ir.model.fields" "create"
                        (.list merged) []) with
                    | (.ok _, s5) => (.ok ⟨Option.none, idv⟩, s5)
                    | (.error e, s5) =>
                      match remote ω s5 (unlinkCall cur.db s5.conn.uid
                          s5.conn.password idv) with
                      | (.ok _, s6) => (.ok ⟨some e, PyVal.none⟩, s6)
                      | (.error e2, s6) => (.error e2, s6)
          else (.ok ⟨some attrErrMsg, PyVal.none⟩, s2)
        | _ => (.ok ⟨some fmtListMsg, PyVal.none⟩, s2)
  else (.ok ⟨some modelNameReqMsg, PyVal.none⟩, s)

/-
Helper lemmas: the successful connect-authenticate-authorize pipeline with
a configured database name, for the access scopes the operations use.
-/

theorem authenticate_ok_db (ω : Oracle) (c : Conn) (d : String) (v0 v : PyVal)
    (hdb : c.db = some d) (hd : d ≠ "")
    (h0 : ω 0 RCall.version = .ok v0)
    (h1 : ω 1 (RCall.auth (.str d) c.username c.password) = .ok v) :
    authenticate ω (mkSt c) =
      (.ok (Option.none, .str d),
        ⟨{ c with uid := v },
         [RCall.version, RCall.auth (.str d) c.username c.password]⟩) := by
  simp only [authenticate, createConnection, remote, mkSt, List.length_nil,
    List.nil_append, List.length_cons, List.length_singleton, h0, hdb, hd,
    if_neg, h1, if_false, List.singleton_append]

theorem authenticate_err_db (ω : Oracle) (c : Conn) (d : String) (v0 : PyVal)
    (e : String)
    (hdb : c.db = some d) (hd : d ≠ "")
    (h0 : ω 0 RCall.version = .ok v0)
    (h1 : ω 1 (RCall.auth (.str d) c.username c.password) = .error e) :
    authenticate ω (mkSt c) =
      (.ok (some authErrMsg, PyVal.none),
        ⟨c, [RCall.version, RCall.auth (.str d) c.username c.password]⟩) := by
  simp only [authenticate, createConnection, remote, mkSt, List.length_nil,
    List.nil_append, List.length_cons, List.length_singleton, h0, hdb, hd,
    if_neg, h1, if_false, List.singleton_append]

theorem access_ok1 (ω : Oracle) (c : Conn) (d mn r1 : String) (v0 v t1 : PyVal)
    (hdb : c.db = some d) (hd : d ≠ "")
    (h0 : ω 0 RCall.version = .ok v0)
    (h1 : ω 1 (RCall.auth (.str d) c.username c.password) = .ok v)
    (h2 : ω 2 (chkCall (.str d) v c.password mn r1) = .ok t1)
    (ht1 : pyFalsy t1 = false) :
    checkModelAccess ω (mkSt c) mn [r1] =
      (.ok ⟨Option.none, true, .str d⟩,
        ⟨{ c with uid := v },
         [RCall.version, RCall.auth (.str d) c.username c.password,
          chkCall (.str d) v c.password mn r1]⟩) := by
  simp only [checkModelAccess,
    authenticate_ok_db ω c d v0 v hdb hd h0 h1, chkLoop, remote,
    List.length_cons, List.length_singleton, List.length_nil, h2, ht1,
    Bool.false_eq_true, if_false, List.append_assoc, List.singleton_append,
    List.cons_append, List.nil_append]

theorem access_ok2 (ω : Oracle) (c : Conn) (d mn r1 r2 : String)
    (v0 v t1 t2 : PyVal)
    (hdb : c.db = some d) (hd : d ≠ "")
    (h0 : ω 0 RCall.version = .ok v0)
    (h1 : ω 1 (RCall.auth (.str d) c.username c.password) = .ok v)
    (h2 : ω 2 (chkCall (.str d) v c.password mn r1) = .ok t1)
    (ht1 : pyFalsy t1 = false)
    (h3 : ω 3 (chkCall (.str d) v c.password mn r2) = .ok t2)
    (ht2 : pyFalsy t2 = false) :
    checkModelAccess ω (mkSt c) mn [r1, r2] =
      (.ok ⟨Option.none, true, .str d⟩,
        ⟨{ c with uid := v },
         [RCall.version, RCall.auth (.str d) c.username c.password,
          chkCall (.str d) v c.password mn r1,
          chkCall (.str d) v c.password mn r2]⟩) := by
  simp only [checkModelAccess,
    authenticate_ok_db ω c d v0 v hdb hd h0 h1, chkLoop, remote,
    List.length_cons, List.length_singleton, List.length_nil, h2, ht1, h3,
    ht2, Bool.false_eq_true, if_false, List.append_assoc,
    List.singleton_append, List.cons_append, List.nil_append]

theorem access_ok3 (ω : Oracle) (c : Conn) (d mn r1 r2 r3 : String)
    (v0 v t1 t2 t3 : PyVal)
    (hdb : c.db = some d) (hd : d ≠ "")
    (h0 : ω 0 RCall.version = .ok v0)
    (h1 : ω 1 (RCall.auth (.str d) c.username c.password) = .ok v)
    (h2 : ω 2 (chkCall (.str d) v c.password mn r1) = .ok t1)
    (ht1 : pyFalsy t1 = false)
    (h3 : ω 3 (chkCall (.str d) v c.password mn r2) = .ok t2)
    (ht2 : pyFalsy t2 = false)
    (h4 : ω 4 (chkCall (.str d) v c.password mn r3) = .ok t3)
    (ht3 : pyFalsy t3 = false) :
    checkModelAccess ω (mkSt c) mn [r1, r2, r3] =
      (.ok ⟨Option.none, true, .str d⟩,
        ⟨{ c with uid := v },
         [RCall.version, RCall.auth (.str d) c.username c.password,
          chkCall (.str d) v c.password mn r1,
          chkCall (.str d) v c.password mn r2,
          chkCall (.str d) v c.password mn r3]⟩) := by
  simp only [checkModelAccess,
    authenticate_ok_db ω c d v0 v hdb hd h0 h1, chkLoop, remote,
    List.length_cons, List.length_singleton, List.length_nil, h2, ht1, h3,
    ht2, h4, ht3, Bool.false_eq_true, if_false, List.append_assoc,
    List.singleton_append, List.cons_append, List.nil_append]

/-- Every executeKw call in the list is a check_access_rights probe. -/
def onlyCheckCalls (l : List RCall) : Prop :=
  ∀ adb uu pw mdl m args kw,
    RCall.executeKw adb uu pw mdl m args kw ∈ l → m = "check_access_rights"

theorem onlyCheckCalls_nil : onlyCheckCalls [] := by
  intro adb uu pw mdl m args kw h
  simp at h

theorem onlyCheckCalls_append (l1 l2 : List RCall)
    (h1 : onlyCheckCalls l1) (h2 : onlyCheckCalls l2) :
    onlyCheckCalls (l1 ++ l2) := by
  intro adb uu pw mdl m args kw h
  rcases List.mem_append.mp h with h | h
  · exact h1 adb uu pw mdl m args kw h
  · exact h2 adb uu pw mdl m args kw h

theorem onlyCheckCalls_version : onlyCheckCalls [RCall.version] := by
  intro adb uu pw mdl m args kw h
  simp at h

theorem onlyCheckCalls_listDb : onlyCheckCalls [RCall.listDb] := by
  intro adb uu pw mdl m args kw h
  simp at h

theorem onlyCheckCalls_auth (dd : PyVal) (u p : Option String) :
    onlyCheckCalls [RCall.auth dd u p] := by
  intro adb uu pw mdl m args kw h
  simp at h

theorem onlyCheckCalls_chk (a u : PyVal) (pw : Option String) (mn r : String) :
    onlyCheckCalls [chkCall a u pw mn r] := by
  intro adb uu pw2 mdl m args kw h
  simp [chkCall] at h
  exact h.2.2.2.2.1

theorem authLoop_trace (ω : Oracle) (u p : Option String) :
    ∀ (ds : List PyVal) (s : St) (err : Option String) (cdb : PyVal),
    ∃ ext, (authLoop ω u p s err cdb ds).2.trace = s.trace ++ ext ∧
      onlyCheckCalls ext := by
  intro ds
  induction ds with
  | nil =>
    intro s err cdb
    exact ⟨[], by simp [authLoop], onlyCheckCalls_nil⟩
  | cons dd rest ih =>
    intro s err cdb
    simp only [authLoop, remote]
    cases hres : ω s.trace.length (RCall.auth dd u p) with
    | ok v => exact ⟨[RCall.auth dd u p], by simp, onlyCheckCalls_auth dd u p⟩
    | error e =>
      obtain ⟨ext, h1, h2⟩ :=
        ih ⟨s.conn, s.trace ++ [RCall.auth dd u p]⟩ (some authErrMsg) cdb
      refine ⟨[RCall.auth dd u p] ++ ext, ?_, onlyCheckCalls_append _ _
        (onlyCheckCalls_auth dd u p) h2⟩
      rw [h1]
      simp

theorem chkLoop_trace (ω : Oracle) (adb : PyVal) (pw : Option String)
    (mn : String) :
    ∀ (scope : List String) (s : St) (err : Option String) (mdl : Bool),
    ∃ ext, (chkLoop ω adb pw mn s err mdl scope).2.trace = s.trace ++ ext ∧
      onlyCheckCalls ext := by
  intro scope
  induction scope with
  | nil =>
    intro s err mdl
    exact ⟨[], by simp [chkLoop], onlyCheckCalls_nil⟩
  | cons r rest ih =>
    intro s err mdl
    simp only [chkLoop, remote]
    cases hres : ω s.trace.length (chkCall adb s.conn.uid pw mn r) with
    | ok v =>
      cases hv : pyFalsy v with
      | true =>
        exact ⟨[chkCall adb s.conn.uid pw mn r], by simp [hv],
          onlyCheckCalls_chk adb s.conn.uid pw mn r⟩
      | false =>
        obtain ⟨ext, h1, h2⟩ :=
          ih ⟨s.conn, s.trace ++ [chkCall adb s.conn.uid pw mn r]⟩ err true
        refine ⟨[chkCall adb s.conn.uid pw mn r] ++ ext, ?_,
          onlyCheckCalls_append _ _
            (onlyCheckCalls_chk adb s.conn.uid pw mn r) h2⟩
        simp only [hv, Bool.false_eq_true, if_false]
        rw [h1]
        simp
    | error e =>
      obtain ⟨ext, h1, h2⟩ :=
        ih ⟨s.conn, s.trace ++ [chkCall adb s.conn.uid pw mn r]⟩
          (some invalidCredMsg) mdl
      refine ⟨[chkCall adb s.conn.uid pw mn r] ++ ext, ?_,
        onlyCheckCalls_append _ _
          (onlyCheckCalls_chk adb s.conn.uid pw mn r) h2⟩
      rw [h1]
      simp

theorem authViaEnum_trace (ω : Oracle) (s : St) :
    ∃ ext, (authViaEnum ω s).2.trace = s.trace ++ ext ∧
      onlyCheckCalls ext := by
  simp only [authViaEnum, remote]
  cases h1 : ω s.trace.length RCall.listDb with
  | error e => exact ⟨[RCall.listDb], by simp, onlyCheckCalls_listDb⟩
  | ok v =>
    cases v with
    | list dbs =>
      cases hde : dbs.isEmpty with
      | true => exact ⟨[RCall.listDb], by simp [hde], onlyCheckCalls_listDb⟩
      | false =>
        obtain ⟨ext, hh1, hh2⟩ := authLoop_trace ω s.conn.username
          s.conn.password dbs ⟨s.conn, s.trace ++ [RCall.listDb]⟩
          Option.none PyVal.none
        refine ⟨[RCall.listDb] ++ ext, ?_, onlyCheckCalls_append _ _
          onlyCheckCalls_listDb hh2⟩
        simp [hde, hh1]
    | none => exact ⟨[RCall.listDb], by simp, onlyCheckCalls_listDb⟩
    | bool b => exact ⟨[RCall.listDb], by simp, onlyCheckCalls_listDb⟩
    | int n => exact ⟨[RCall.listDb], by simp, onlyCheckCalls_listDb⟩
    | str st => exact ⟨[RCall.listDb], by simp, onlyCheckCalls_listDb⟩
    | dict kvs => exact ⟨[RCall.listDb], by simp, onlyCheckCalls_listDb⟩

theorem authenticate_trace (ω : Oracle) (s : St) :
    ∃ ext, (authenticate ω s).2.trace = s.trace ++ ext ∧
      onlyCheckCalls ext := by
  simp only [authenticate, createConnection, remote]
  cases h0 : ω s.trace.length RCall.version with
  | error e => exact ⟨[RCall.version], by simp, onlyCheckCalls_version⟩
  | ok v0 =>
    cases hdb : s.conn.db with
    | none =>
      obtain ⟨ext, hh1, hh2⟩ :=
        authViaEnum_trace ω ⟨s.conn, s.trace ++ [RCall.version]⟩
      refine ⟨[RCall.version] ++ ext, ?_, onlyCheckCalls_append _ _
        onlyCheckCalls_version hh2⟩
      simp only [hdb]
      simp [hh1]
    | some d =>
      by_cases hdd : d = ""
      · obtain ⟨ext, hh1, hh2⟩ :=
          authViaEnum_trace ω ⟨s.conn, s.trace ++ [RCall.version]⟩
        refine ⟨[RCall.version] ++ ext, ?_, onlyCheckCalls_append _ _
          onlyCheckCalls_version hh2⟩
        simp only [hdb]
        simp [hdd, hh1]
      · simp only [hdb, hdd, if_false, if_neg, not_false_iff]
        cases h1 : ω (s.trace ++ [RCall.version]).length
            (RCall.auth (.str d) s.conn.username s.conn.password) with
        | ok v =>
          refine ⟨[RCall.version,
            RCall.auth (.str d) s.conn.username s.conn.password], ?_,
            onlyCheckCalls_append _ _ onlyCheckCalls_version
              (onlyCheckCalls_auth _ _ _)⟩
          simp
        | error e =>
          refine ⟨[RCall.version,
            RCall.auth (.str d) s.conn.username s.conn.password], ?_,
            onlyCheckCalls_append _ _ onlyCheckCalls_version
              (onlyCheckCalls_auth _ _ _)⟩
          simp

theorem checkModelAccess_trace (ω : Oracle) (s : St) (mn : String)
    (scope : List String) :
    ∃ ext, (checkModelAccess ω s mn scope).2.trace = s.trace ++ ext ∧
      onlyCheckCalls ext := by
  obtain ⟨ext1, ha1, ha2⟩ := authenticate_trace ω s
  simp only [checkModelAccess]
  rcases hau : authenticate ω s with ⟨r, s2⟩
  rw [hau] at ha1
  simp only at ha1
  cases r with
  | error e => exact ⟨ext1, ha1, ha2⟩
  | ok val =>
    rcases val with ⟨oe, adb⟩
    cases oe with
    | some e => exact ⟨ext1, ha1, ha2⟩
    | none =>
      obtain ⟨ext2, hc1, hc2⟩ :=
        chkLoop_trace ω adb s2.conn.password mn scope s2 Option.none false
      rcases hcl : chkLoop ω adb s2.conn.password mn s2 Option.none false
          scope with ⟨⟨err, mdl⟩, s3⟩
      rw [hcl] at hc1
      simp only at hc1
      refine ⟨ext1 ++ ext2, ?_, onlyCheckCalls_append _ _ ha2 hc2⟩
      simp [hcl, hc1, ha1]

/-- C7: delete_record with an empty id list returns the validation error
with count 0 and issues no unlink call; with N ids and a successful remote
unlink it returns count N (the input length), whatever payload w the
server reported. -/
theorem C7_delete_record :
    (∀ (ω : Oracle) (c : Conn) (d mn : String) (v0 v t1 t2 : PyVal),
      c.db = some d → d ≠ "" →
      ω 0 RCall.version = .ok v0 →
      ω 1 (RCall.auth (.str d) c.username c.password) = .ok v →
      ω 2 (chkCall (.str d) v c.password mn "read") = .ok t1 →
      pyFalsy t1 = false →
      ω 3 (chkCall (.str d) v c.password mn "unlink") = .ok t2 →
      pyFalsy t2 = false → mn ≠ "" →
      delete_record ω (mkSt c) (some mn) [] =
        (.ok ⟨some noDeleteMsg, .int 0⟩,
         ⟨{ c with uid := v },
          [RCall.version, RCall.auth (.str d) c.username c.password,
           chkCall (.str d) v c.password mn "read",
           chkCall (.str d) v c.password mn "unlink"]⟩)) ∧
    (∀ (ω2 : Oracle) (c2 : Conn) (mname : Option String)
       (adb uu : PyVal) (pw : Option String) (mdl : String)
       (args : PyVal) (kw : List (String × PyVal)),
      RCall.executeKw adb uu pw mdl "unlink" args kw ∉
        (delete_record ω2 (mkSt c2) mname []).2.trace) ∧
    (∀ (ω : Oracle) (c : Conn) (d mn : String) (v0 v t1 t2 w : PyVal)
       (ids : List PyVal),
      c.db = some d → d ≠ "" →
      ω 0 RCall.version = .ok v0 →
      ω 1 (RCall.auth (.str d) c.username c.password) = .ok v →
      ω 2 (chkCall (.str d) v c.password mn "read") = .ok t1 →
      pyFalsy t1 = false →
      ω 3 (chkCall (.str d) v c.password mn "unlink") = .ok t2 →
      pyFalsy t2 = false → mn ≠ "" →
      ids.isEmpty = false →
      ω 4 (RCall.executeKw (.str d) v c.password mn "unlink"
        (.list [.list ids]) []) = .ok w →
      (delete_record ω (mkSt c) (some mn) ids).1 =
        .ok ⟨Option.none, .int (ids.length : Int)⟩) := by
  refine ⟨?_, ?_, ?_⟩
  · intro ω c d mn v0 v t1 t2 hdb hd h0 h1 h2 ht1 h3 ht2 hmn
    simp only [delete_record, pyTruthyStr, hmn, ne_eq, not_false_iff,
      bne_iff_ne, if_true, Option.getD_some,
      access_ok2 ω c d mn "read" "unlink" v0 v t1 t2 hdb hd h0 h1 h2 ht1 h3
        ht2, List.isEmpty_nil, if_true]
  · intro ω2 c2 mname adb uu pw mdl args kw hmem
    by_cases hmn2 : pyTruthyStr mname = true
    · obtain ⟨ext, he1, he2⟩ :=
        checkModelAccess_trace ω2 (mkSt c2) (mname.getD "")
          ["read", "unlink"]
      rcases hc : checkModelAccess ω2 (mkSt c2) (mname.getD "")
          ["read", "unlink"] with ⟨r, s2⟩
      rw [hc] at he1
      simp only at he1
      simp only [delete_record, hmn2, if_true, hc] at hmem
      have hmem2 : RCall.executeKw adb uu pw mdl "unlink" args kw ∈
          s2.trace := by
        cases r with
        | error e => simpa using hmem
        | ok cur =>
          cases hce : cur.error with
          | some e => simp only [hce] at hmem; simpa using hmem
          | none => simp only [hce] at hmem; simpa using hmem
      rw [he1] at hmem2
      have := he2 adb uu pw mdl "unlink" args kw (by simpa [mkSt] using hmem2)
      simp at this
    · simp [delete_record, hmn2, mkSt] at hmem
  · intro ω c d mn v0 v t1 t2 w ids hdb hd h0 h1 h2 ht1 h3 ht2 hmn hne h4
    simp only [delete_record, pyTruthyStr, hmn, ne_eq, not_false_iff,
      bne_iff_ne, if_true, Option.getD_some,
      access_ok2 ω c d mn "read" "unlink" v0 v t1 t2 hdb hd h0 h1 h2 ht1 h3
        ht2, hne, Bool.false_eq_true, if_false, remote, List.length_cons,
      List.length_singleton, List.length_nil, h4]

/-- A connector instance with a configured database, used by the concrete
witnesses. -/
def cnD : Conn := mkConn Option.none Option.none (some "db1") (some "u") (some "p")

/-- A server that accepts authentication, grants every access check, and
answers every data call successfully. -/
def srvOK : Oracle := fun n _ =>
  if n = 0 then .ok (.str "14.0")
  else if n = 1 then .ok (.int 7)
  else if n ≤ 4 then .ok (.bool true)
  else .ok (.int 5)

/-- Witness for C7 at a concrete server. -/
theorem C7_delete_record_witness :
    (delete_record srvOK (mkSt cnD) (some "res.partner") []).1 =
        .ok ⟨some noDeleteMsg, .int 0⟩ ∧
    RCall.executeKw (.str "db1") (.int 7) (some "p") "res.partner" "unlink"
        (.list [.list []]) [] ∉
      (delete_record srvOK (mkSt cnD) (some "res.partner") []).2.trace ∧
    (delete_record srvOK (mkSt cnD) (some "res.partner")
        [.int 1, .int 2]).1 = .ok ⟨Option.none, .int 2⟩ := by
  obtain ⟨hA, hB, hC⟩ := C7_delete_record
  refine ⟨?_, ?_, ?_⟩
  · have := hA srvOK cnD "db1" "res.partner" (.str "14.0") (.int 7)
      (.bool true) (.bool true) rfl (by decide) rfl rfl rfl rfl rfl rfl
      (by decide)
    rw [this]
  · exact hB srvOK cnD (some "res.partner") (.str "db1") (.int 7) (some "p")
      "res.partner" (.list [.list []]) []
  · exact hC srvOK cnD "db1" "res.partner" (.str "14.0") (.int 7)
      (.bool true) (.bool true) (.bool true) [.int 1, .int 2] rfl
      (by decide) rfl rfl rfl rfl rfl rfl (by decide) rfl rfl

/-- C8: update_record with non-empty ids and the empty field mapping
returns a success envelope echoing the ids without calling write; with
empty ids it returns the validation error, and in both degenerate cases no
write call is ever issued, whatever the server does. -/
theorem C8_update_record :
    (∀ (ω : Oracle) (c : Conn) (d mn : String) (v0 v t1 t2 : PyVal)
       (ids : List PyVal),
      c.db = some d → d ≠ "" →
      ω 0 RCall.version = .ok v0 →
      ω 1 (RCall.auth (.str d) c.username c.password) = .ok v →
      ω 2 (chkCall (.str d) v c.password mn "read") = .ok t1 →
      pyFalsy t1 = false →
      ω 3 (chkCall (.str d) v c.password mn "write") = .ok t2 →
      pyFalsy t2 = false → mn ≠ "" → ids.isEmpty = false →
      update_record ω (mkSt c) (some mn) ids (.dict []) =
        (.ok ⟨Option.none, .list ids⟩,
         ⟨{ c with uid := v },
          [RCall.version, RCall.auth (.str d) c.username c.password,
           chkCall (.str d) v c.password mn "read",
           chkCall (.str d) v c.password mn "write"]⟩)) ∧
    (∀ (ω : Oracle) (c : Conn) (d mn : String) (v0 v t1 t2 : PyVal)
       (fields : PyVal),
      c.db = some d → d ≠ "" →
      ω 0 RCall.version = .ok v0 →
      ω 1 (RCall.auth (.str d) c.username c.password) = .ok v →
      ω 2 (chkCall (.str d) v c.password mn "read") = .ok t1 →
      pyFalsy t1 = false →
      ω 3 (chkCall (.str d) v c.password mn "write") = .ok t2 →
      pyFalsy t2 = false → mn ≠ "" →
      (update_record ω (mkSt c) (some mn) [] fields).1 =
        .ok ⟨some noUpdateMsg, PyVal.none⟩) ∧
    (∀ (ω2 : Oracle) (c2 : Conn) (mname : Option String)
       (ids2 : List PyVal) (fields2 : PyVal)
       (adb uu : PyVal) (pw : Option String) (mdl : String)
       (args : PyVal) (kw : List (String × PyVal)),
      ids2.isEmpty = true ∨ fields2 = .dict [] →
      RCall.executeKw adb uu pw mdl "write" args kw ∉
        (update_record ω2 (mkSt c2) mname ids2 fields2).2.trace) := by
  refine ⟨?_, ?_, ?_⟩
  · intro ω c d mn v0 v t1 t2 ids hdb hd h0 h1 h2 ht1 h3 ht2 hmn hne
    simp only [update_record, pyTruthyStr, hmn, ne_eq, not_false_iff,
      bne_iff_ne, if_true, Option.getD_some,
      access_ok2 ω c d mn "read" "write" v0 v t1 t2 hdb hd h0 h1 h2 ht1 h3
        ht2, hne, Bool.false_eq_true, if_false]
  · intro ω c d mn v0 v t1 t2 fields hdb hd h0 h1 h2 ht1 h3 ht2 hmn
    simp only [update_record, pyTruthyStr, hmn, ne_eq, not_false_iff,
      bne_iff_ne, if_true, Option.getD_some,
      access_ok2 ω c d mn "read" "write" v0 v t1 t2 hdb hd h0 h1 h2 ht1 h3
        ht2, List.isEmpty_nil, if_true]
  · intro ω2 c2 mname ids2 fields2 adb uu pw mdl args kw hcase hmem
    by_cases hmn2 : pyTruthyStr mname = true
    · obtain ⟨ext, he1, he2⟩ :=
        checkModelAccess_trace ω2 (mkSt c2) (mname.getD "")
          ["read", "write"]
      rcases hc : checkModelAccess ω2 (mkSt c2) (mname.getD "")
          ["read", "write"] with ⟨r, s2⟩
      rw [hc] at he1
      simp only at he1
      simp only [update_record, hmn2, if_true, hc] at hmem
      have hmem2 : RCall.executeKw adb uu pw mdl "write" args kw ∈
          s2.trace := by
        cases r with
        | error e => simpa using hmem
        | ok cur =>
          cases hce : cur.error with
          | some e => simp only [hce] at hmem; simpa using hmem
          | none =>
            simp only [hce] at hmem
            rcases hcase with hie | hf2
            · simp only [hie] at hmem; simpa using hmem
            · cases hie2 : ids2.isEmpty with
              | true => simp only [hie2] at hmem; simpa using hmem
              | false =>
                simp only [hie2, hf2, Bool.false_eq_true, if_false] at hmem
                simpa using hmem
      rw [he1] at hmem2
      have := he2 adb uu pw mdl "write" args kw (by simpa [mkSt] using hmem2)
      simp at this
    · simp [update_record, hmn2, mkSt] at hmem

/-- Witness for C8 at a concrete server. -/
theorem C8_update_record_witness :
    (update_record srvOK (mkSt cnD) (some "res.partner") [.int 4]
        (.dict [])).1 = .ok ⟨Option.none, .list [.int 4]⟩ ∧
    (update_record srvOK (mkSt cnD) (some "res.partner") []
        (.dict [("name", .str "x")])).1 =
      .ok ⟨some noUpdateMsg, PyVal.none⟩ ∧
    RCall.executeKw (.str "db1") (.int 7) (some "p") "res.partner" "write"
        (.list [.list [.int 4], .dict []]) [] ∉
      (update_record srvOK (mkSt cnD) (some "res.partner") [.int 4]
        (.dict [])).2.trace := by
  obtain ⟨hA, hB, hC⟩ := C8_update_record
  refine ⟨?_, ?_, ?_⟩
  · have := hA srvOK cnD "db1" "res.partner" (.str "14.0") (.int 7)
      (.bool true) (.bool true) [.int 4] rfl (by decide) rfl rfl rfl rfl rfl
      rfl (by decide) rfl
    rw [this]
  · exact hB srvOK cnD "db1" "res.partner" (.str "14.0") (.int 7)
      (.bool true) (.bool true) (.dict [("name", .str "x")]) rfl (by decide)
      rfl rfl rfl rfl rfl rfl (by decide)
  · exact hC srvOK cnD (some "res.partner") [.int 4] (.dict [])
      (.str "db1") (.int 7) (some "p") "res.partner"
      (.list [.list [.int 4], .dict []]) [] (Or.inr rfl)

/-- If every authentication attempt raises, the fallback loop tries every
database, ends with the credentials error (written by the last failed
attempt), and leaves the instance (in particular its uid) unchanged. -/
theorem authLoop_all_fail (ω : Oracle) (u p : Option String) :
    ∀ (ds : List PyVal) (s : St) (err0 : Option String) (cdb : PyVal),
    (∀ i (h : i < ds.length),
      ∃ e, ω (s.trace.length + i) (RCall.auth (ds.get ⟨i, h⟩) u p) =
        .error e) →
    authLoop ω u p s err0 cdb ds =
      ((if ds.isEmpty then err0 else some authErrMsg, cdb),
       ⟨s.conn, s.trace ++ ds.map (fun dd => RCall.auth dd u p)⟩) := by
  intro ds
  induction ds with
  | nil =>
    intro s err0 cdb hfail
    simp [authLoop]
  | cons dd rest ih =>
    intro s err0 cdb hfail
    obtain ⟨e, he⟩ := hfail 0 (by simp)
    rw [Nat.add_zero] at he
    simp only [List.get] at he
    simp only [authLoop, remote, he]
    rw [ih ⟨s.conn, s.trace ++ [RCall.auth dd u p]⟩ (some authErrMsg) cdb ?_]
    · cases hre : rest.isEmpty with
      | true =>
        have : rest = [] := by
          cases rest with
          | nil => rfl
          | cons x xs => simp at hre
        subst this
        simp
      | false =>
        have : rest ≠ [] := by
          cases rest with
          | nil => simp at hre
          | cons x xs => simp
        simp [hre]
    · intro i h
      obtain ⟨e2, he2⟩ := hfail (i + 1) (by simpa using Nat.succ_lt_succ h)
      refine ⟨e2, ?_⟩
      have hidx : s.trace.length + (i + 1) =
          (⟨s.conn, s.trace ++ [RCall.auth dd u p]⟩ : St).trace.length + i := by
        simp
        omega
      rw [← hidx]
      simpa using he2

/-- The fallback loop stops at the first database whose authentication
attempt returns: its uid is stored, the attempted prefix is exactly
pre ++ [dd], and the error is cleared. -/
theorem authLoop_first_success (ω : Oracle) (u p : Option String) :
    ∀ (pre : List PyVal) (dd : PyVal) (post : List PyVal) (s : St)
      (err0 : Option String) (cdb v : PyVal),
    (∀ i (h : i < pre.length),
      ∃ e, ω (s.trace.length + i) (RCall.auth (pre.get ⟨i, h⟩) u p) =
        .error e) →
    ω (s.trace.length + pre.length) (RCall.auth dd u p) = .ok v →
    authLoop ω u p s err0 cdb (pre ++ dd :: post) =
      ((Option.none, dd),
       ⟨{ s.conn with uid := v },
        s.trace ++ (pre ++ [dd]).map (fun x => RCall.auth x u p)⟩) := by
  intro pre
  induction pre with
  | nil =>
    intro dd post s err0 cdb v hfail hok
    simp only [List.length_nil, Nat.add_zero] at hok
    simp only [List.nil_append, authLoop, remote, hok]
    simp
  | cons a rest ih =>
    intro dd post s err0 cdb v hfail hok
    obtain ⟨e, he⟩ := hfail 0 (by simp)
    rw [Nat.add_zero] at he
    simp only [List.get] at he
    simp only [List.cons_append, authLoop, remote, he, List.append_eq]
    rw [ih dd post ⟨s.conn, s.trace ++ [RCall.auth a u p]⟩ (some authErrMsg)
      cdb v ?_ ?_]
    · simp
    · intro i h
      obtain ⟨e2, he2⟩ := hfail (i + 1) (by simpa using Nat.succ_lt_succ h)
      refine ⟨e2, ?_⟩
      have hidx : s.trace.length + (i + 1) =
          (⟨s.conn, s.trace ++ [RCall.auth a u p]⟩ : St).trace.length + i := by
        simp
        omega
      rw [← hidx]
      simpa using he2
    · have hidx : s.trace.length + (a :: rest).length =
          (⟨s.conn, s.trace ++ [RCall.auth a u p]⟩ : St).trace.length
            + rest.length := by
        simp
        omega
      rw [← hidx]
      exact hok

/-- With no configured database name, a reachable server and a list-shaped
enumeration payload, `_authenticate` defers to the fallback loop started
after the version and list calls. -/
theorem authenticate_enum (ω : Oracle) (c : Conn) (v0 : PyVal)
    (dbs : List PyVal)
    (hdb : c.db = Option.none)
    (h0 : ω 0 RCall.version = .ok v0)
    (h1 : ω 1 RCall.listDb = .ok (.list dbs))
    (hne : dbs ≠ []) :
    authenticate ω (mkSt c) =
      (.ok (authLoop ω c.username c.password
          ⟨c, [RCall.version, RCall.listDb]⟩ Option.none PyVal.none dbs).1,
       (authLoop ω c.username c.password
          ⟨c, [RCall.version, RCall.listDb]⟩ Option.none PyVal.none dbs).2) := by
  have hne2 : dbs.isEmpty = false := by
    cases dbs with
    | nil => exact absurd rfl hne
    | cons a as => rfl
  simp only [authenticate, createConnection, remote, mkSt, List.length_nil,
    List.nil_append, h0, hdb, authViaEnum, List.length_singleton, h1, hne2,
    Bool.false_eq_true, if_false, List.singleton_append]

/-- C2: with no configured database name, authenticate enumerates the
databases; an empty enumeration yields the no-database error; otherwise
each database is attempted in order, the loop stops at the first success
returning that database with no error, and if every attempt raises the
reported error is the credentials error written by the last attempt. -/
theorem C2_authenticate_fallback :
    (∀ (ω : Oracle) (c : Conn) (v0 : PyVal),
      c.db = Option.none →
      ω 0 RCall.version = .ok v0 →
      ω 1 RCall.listDb = .ok (.list []) →
      authenticate ω (mkSt c) =
        (.ok (some noDbMsg, PyVal.none),
         ⟨c, [RCall.version, RCall.listDb]⟩)) ∧
    (∀ (ω : Oracle) (c : Conn) (v0 : PyVal) (dbs : List PyVal),
      c.db = Option.none →
      ω 0 RCall.version = .ok v0 →
      ω 1 RCall.listDb = .ok (.list dbs) →
      dbs ≠ [] →
      (∀ i (h : i < dbs.length), ∃ e,
        ω (2 + i) (RCall.auth (dbs.get ⟨i, h⟩) c.username c.password) =
          .error e) →
      authenticate ω (mkSt c) =
        (.ok (some authErrMsg, PyVal.none),
         ⟨c, [RCall.version, RCall.listDb] ++
            dbs.map (fun x => RCall.auth x c.username c.password)⟩)) ∧
    (∀ (ω : Oracle) (c : Conn) (v0 : PyVal) (pre : List PyVal) (dd : PyVal)
       (post : List PyVal) (v : PyVal),
      c.db = Option.none →
      ω 0 RCall.version = .ok v0 →
      ω 1 RCall.listDb = .ok (.list (pre ++ dd :: post)) →
      (∀ i (h : i < pre.length), ∃ e,
        ω (2 + i) (RCall.auth (pre.get ⟨i, h⟩) c.username c.password) =
          .error e) →
      ω (2 + pre.length) (RCall.auth dd c.username c.password) = .ok v →
      authenticate ω (mkSt c) =
        (.ok (Option.none, dd),
         ⟨{ c with uid := v },
          [RCall.version, RCall.listDb] ++
            (pre ++ [dd]).map
              (fun x => RCall.auth x c.username c.password)⟩)) := by
  refine ⟨?_, ?_, ?_⟩
  · intro ω c v0 hdb h0 h1
    simp only [authenticate, createConnection, remote, mkSt, List.length_nil,
      List.nil_append, h0, hdb, authViaEnum, List.length_singleton, h1,
      List.isEmpty_nil, if_true, List.singleton_append]
  · intro ω c v0 dbs hdb h0 h1 hne hfail
    rw [authenticate_enum ω c v0 dbs hdb h0 h1 hne]
    rw [authLoop_all_fail ω c.username c.password dbs
      ⟨c, [RCall.version, RCall.listDb]⟩ Option.none PyVal.none ?_]
    · have hne2 : dbs.isEmpty = false := by
        cases dbs with
        | nil => exact absurd rfl hne
        | cons a as => rfl
      simp [hne2]
    · intro i h
      obtain ⟨e, he⟩ := hfail i h
      exact ⟨e, by simpa using he⟩
  · intro ω c v0 pre dd post v hdb h0 h1 hfail hok
    rw [authenticate_enum ω c v0 (pre ++ dd :: post) hdb h0 h1 (by simp)]
    rw [authLoop_first_success ω c.username c.password pre dd post
      ⟨c, [RCall.version, RCall.listDb]⟩ Option.none PyVal.none v ?hf ?hk]
    case hf =>
      intro i h
      obtain ⟨e, he⟩ := hfail i h
      exact ⟨e, by simpa using he⟩
    case hk => simpa using hok

/-- A connector instance with no configured database. -/
def cnN : Conn := mkConn Option.none Option.none Option.none (some "u") (some "p")

/-- A server with no databases. -/
def srvNoDb : Oracle := fun n _ =>
  if n = 0 then .ok (.str "14.0") else .ok (.list [])

/-- A server with two databases that rejects every authentication. -/
def srvAllFail : Oracle := fun n _ =>
  if n = 0 then .ok (.str "14.0")
  else if n = 1 then .ok (.list [.str "a", .str "b"])
  else .error "denied"

/-- A server with two databases where only the second accepts the
credentials. -/
def srvSecond : Oracle := fun n _ =>
  if n = 0 then .ok (.str "14.0")
  else if n = 1 then .ok (.list [.str "a", .str "b"])
  else if n = 2 then .error "denied"
  else if n = 3 then .ok (.int 9)
  else .error "unreachable"

/-- Witness for C2 at three concrete servers. -/
theorem C2_authenticate_fallback_witness :
    authenticate srvNoDb (mkSt cnN) =
      (.ok (some noDbMsg, PyVal.none),
       ⟨cnN, [RCall.version, RCall.listDb]⟩) ∧
    authenticate srvAllFail (mkSt cnN) =
      (.ok (some authErrMsg, PyVal.none),
       ⟨cnN, [RCall.version, RCall.listDb,
         RCall.auth (.str "a") (some "u") (some "p"),
         RCall.auth (.str "b") (some "u") (some "p")]⟩) ∧
    authenticate srvSecond (mkSt cnN) =
      (.ok (Option.none, .str "b"),
       ⟨{ cnN with uid := .int 9 },
        [RCall.version, RCall.listDb,
         RCall.auth (.str "a") (some "u") (some "p"),
         RCall.auth (.str "b") (some "u") (some "p")]⟩) := by
  obtain ⟨hA, hB, hC⟩ := C2_authenticate_fallback
  refine ⟨hA srvNoDb cnN (.str "14.0") rfl rfl rfl, ?_, ?_⟩
  · have := hB srvAllFail cnN (.str "14.0") [.str "a", .str "b"] rfl rfl rfl
      (by simp) ?_
    · simpa using this
    · intro i h
      simp at h
      interval_cases i
      · exact ⟨"denied", rfl⟩
      · exact ⟨"denied", rfl⟩
  · have := hC srvSecond cnN (.str "14.0") [.str "a"] (.str "b") []
      (.int 9) rfl rfl rfl ?_ rfl
    · simpa using this
    · intro i h
      simp at h
      subst h
      exact ⟨"denied", rfl⟩

/-- A server that authenticates the first call (session id 42) and raises
on the second call's authentication attempt. -/
def srvStale : Oracle := fun n _ =>
  if n = 0 then .ok (.str "14.0")
  else if n = 1 then .ok (.int 42)
  else if n = 2 then .ok (.str "14.0")
  else .error "Fault"

/-- C10 counterexample: after a first call whose authentication attempt
returned session id 42 and a second call whose (last) authentication
attempt raised and issued nothing, the cached uid is still 42 — a stale
value from the earlier call, not one issued by the last attempt.  The
assignment `self.uid = conn.authenticate(...)` never executes when the
attempt raises, so the uid is not overwritten on every attempt. -/
theorem C10_uid_stale_counterexample :
    (authenticate srvStale (authenticate srvStale (mkSt cnD)).2).2.conn.uid =
        .int 42 ∧
    (authenticate srvStale (authenticate srvStale (mkSt cnD)).2).1 =
      .ok (some authErrMsg, PyVal.none) ∧
    srvStale 3 (RCall.auth (.str "db1") (some "u") (some "p")) =
      .error "Fault" := ⟨rfl, rfl, rfl⟩

/-- C10 amended: the cached uid is overwritten by every authentication
attempt that returns; an attempt that raises leaves the previously cached
value in place, so the stored session id is the one issued by the last
non-raising attempt. -/
theorem C10_uid_last_success :
    (∀ (ω : Oracle) (c : Conn) (d : String) (v0 v : PyVal),
      c.db = some d → d ≠ "" →
      ω 0 RCall.version = .ok v0 →
      ω 1 (RCall.auth (.str d) c.username c.password) = .ok v →
      (authenticate ω (mkSt c)).2.conn.uid = v) ∧
    (∀ (ω : Oracle) (c : Conn) (d : String) (v0 : PyVal) (e : String),
      c.db = some d → d ≠ "" →
      ω 0 RCall.version = .ok v0 →
      ω 1 (RCall.auth (.str d) c.username c.password) = .error e →
      (authenticate ω (mkSt c)).2.conn.uid = c.uid) ∧
    (∀ (ω : Oracle) (c : Conn) (v0 : PyVal) (dbs : List PyVal),
      c.db = Option.none →
      ω 0 RCall.version = .ok v0 →
      ω 1 RCall.listDb = .ok (.list dbs) →
      (∀ i (h : i < dbs.length), ∃ e,
        ω (2 + i) (RCall.auth (dbs.get ⟨i, h⟩) c.username c.password) =
          .error e) →
      (authenticate ω (mkSt c)).2.conn.uid = c.uid) ∧
    (∀ (ω : Oracle) (c : Conn) (v0 : PyVal) (pre : List PyVal) (dd : PyVal)
       (post : List PyVal) (v : PyVal),
      c.db = Option.none →
      ω 0 RCall.version = .ok v0 →
      ω 1 RCall.listDb = .ok (.list (pre ++ dd :: post)) →
      (∀ i (h : i < pre.length), ∃ e,
        ω (2 + i) (RCall.auth (pre.get ⟨i, h⟩) c.username c.password) =
          .error e) →
      ω (2 + pre.length) (RCall.auth dd c.username c.password) = .ok v →
      (authenticate ω (mkSt c)).2.conn.uid = v) := by
  refine ⟨?_, ?_, ?_, ?_⟩
  · intro ω c d v0 v hdb hd h0 h1
    rw [authenticate_ok_db ω c d v0 v hdb hd h0 h1]
  · intro ω c d v0 e hdb hd h0 h1
    rw [authenticate_err_db ω c d v0 e hdb hd h0 h1]
  · intro ω c v0 dbs hdb h0 h1 hfail
    cases dbs with
    | nil =>
      simp only [authenticate, createConnection, remote, mkSt,
        List.length_nil, List.nil_append, h0, hdb, authViaEnum,
        List.length_singleton, h1, List.isEmpty_nil, if_true,
        List.singleton_append]
    | cons a rest =>
      rw [authenticate_enum ω c v0 (a :: rest) hdb h0 h1 (by simp)]
      rw [authLoop_all_fail ω c.username c.password (a :: rest)
        ⟨c, [RCall.version, RCall.listDb]⟩ Option.none PyVal.none ?hf]
      case hf =>
        intro i h
        obtain ⟨e, he⟩ := hfail i h
        exact ⟨e, by simpa using he⟩
  · intro ω c v0 pre dd post v hdb h0 h1 hfail hok
    rw [authenticate_enum ω c v0 (pre ++ dd :: post) hdb h0 h1 (by simp)]
    rw [authLoop_first_success ω c.username c.password pre dd post
      ⟨c, [RCall.version, RCall.listDb]⟩ Option.none PyVal.none v ?hf2 ?hk2]
    case hf2 =>
      intro i h
      obtain ⟨e, he⟩ := hfail i h
      exact ⟨e, by simpa using he⟩
    case hk2 => simpa using hok

/-- A server that accepts the version probe and raises on everything
else. -/
def srvRaise1 : Oracle := fun n _ =>
  if n = 0 then .ok (.str "14.0") else .error "denied"

/-- Witness for the amended C10 at concrete servers. -/
theorem C10_uid_last_success_witness :
    (authenticate srvOK (mkSt cnD)).2.conn.uid = .int 7 ∧
    (authenticate srvRaise1 (mkSt cnD)).2.conn.uid = PyVal.none ∧
    (authenticate srvAllFail (mkSt cnN)).2.conn.uid = PyVal.none ∧
    (authenticate srvSecond (mkSt cnN)).2.conn.uid = .int 9 := by
  obtain ⟨hA, hB, hC, hD⟩ := C10_uid_last_success
  refine ⟨?_, ?_, ?_, ?_⟩
  · exact hA srvOK cnD "db1" (.str "14.0") (.int 7) rfl (by decide) rfl rfl
  · exact hB srvRaise1 cnD "db1" (.str "14.0") "denied" rfl (by decide) rfl
      rfl
  · exact hC srvAllFail cnN (.str "14.0") [.str "a", .str "b"] rfl rfl rfl
      (by
        intro i h
        simp at h
        interval_cases i
        · exact ⟨"denied", rfl⟩
        · exact ⟨"denied", rfl⟩)
  · exact hD srvSecond cnN (.str "14.0") [.str "a"] (.str "b") [] (.int 9)
      rfl rfl rfl
      (by
        intro i h
        simp at h
        subst h
        exact ⟨"denied", rfl⟩) rfl

/-- A server whose check for the first access right raises while every
later probe succeeds. -/
def srvC4 : Oracle := fun n _ =>
  if n = 0 then .ok (.str "14.0")
  else if n = 1 then .ok (.int 7)
  else if n = 2 then .error "Fault"
  else .ok (.bool true)

/-- C4 counterexample: the check_access_rights probe for the first right
("read") raises, yet the probe for the subsequent right ("write") is still
issued (fourth trace element) — the loop does not short-circuit on a
raised check.  The recorded invalid-credentials error survives even though
the later probe succeeded. -/
theorem C4_short_circuit_counterexample :
    (checkModelAccess srvC4 (mkSt cnD) "res.partner"
        ["read", "write"]).2.trace =
      [RCall.version, RCall.auth (.str "db1") (some "u") (some "p"),
       chkCall (.str "db1") (.int 7) (some "p") "res.partner" "read",
       chkCall (.str "db1") (.int 7) (some "p") "res.partner" "write"] ∧
    srvC4 2 (chkCall (.str "db1") (.int 7) (some "p") "res.partner"
        "read") = .error "Fault" ∧
    (checkModelAccess srvC4 (mkSt cnD) "res.partner" ["read", "write"]).1 =
      .ok ⟨some invalidCredMsg, true, .str "db1"⟩ := ⟨rfl, rfl, rfl⟩

/-- C4 amended: the loop over required rights stops immediately only when
a probe returns a falsy payload (permission error for that right, nothing
further probed); a probe that raises records the invalid-credentials
error but continues with the remaining rights, and a truthy probe leaves
any recorded error in place. -/
theorem C4_access_loop :
    (∀ (ω : Oracle) (adb : PyVal) (pw : Option String) (mn : String)
       (s : St) (err : Option String) (mdl : Bool) (r : String)
       (rest : List String) (t : PyVal),
      ω s.trace.length (chkCall adb s.conn.uid pw mn r) = .ok t →
      pyFalsy t = true →
      chkLoop ω adb pw mn s err mdl (r :: rest) =
        ((some (permErrMsg r), mdl),
         ⟨s.conn, s.trace ++ [chkCall adb s.conn.uid pw mn r]⟩)) ∧
    (∀ (ω : Oracle) (adb : PyVal) (pw : Option String) (mn : String)
       (s : St) (err : Option String) (mdl : Bool) (r : String)
       (rest : List String) (e : String),
      ω s.trace.length (chkCall adb s.conn.uid pw mn r) = .error e →
      chkLoop ω adb pw mn s err mdl (r :: rest) =
        chkLoop ω adb pw mn
          ⟨s.conn, s.trace ++ [chkCall adb s.conn.uid pw mn r]⟩
          (some invalidCredMsg) mdl rest) ∧
    (∀ (ω : Oracle) (adb : PyVal) (pw : Option String) (mn : String)
       (s : St) (err : Option String) (mdl : Bool) (r : String)
       (rest : List String) (t : PyVal),
      ω s.trace.length (chkCall adb s.conn.uid pw mn r) = .ok t →
      pyFalsy t = false →
      chkLoop ω adb pw mn s err mdl (r :: rest) =
        chkLoop ω adb pw mn
          ⟨s.conn, s.trace ++ [chkCall adb s.conn.uid pw mn r]⟩
          err true rest) ∧
    (∀ (ω : Oracle) (c : Conn) (d mn r1 : String) (rest : List String)
       (v0 v t1 : PyVal),
      c.db = some d → d ≠ "" →
      ω 0 RCall.version = .ok v0 →
      ω 1 (RCall.auth (.str d) c.username c.password) = .ok v →
      ω 2 (chkCall (.str d) v c.password mn r1) = .ok t1 →
      pyFalsy t1 = true →
      checkModelAccess ω (mkSt c) mn (r1 :: rest) =
        (.ok ⟨some (permErrMsg r1), false, .str d⟩,
         ⟨{ c with uid := v },
          [RCall.version, RCall.auth (.str d) c.username c.password,
           chkCall (.str d) v c.password mn r1]⟩)) := by
  refine ⟨?_, ?_, ?_, ?_⟩
  · intro ω adb pw mn s err mdl r rest t hres ht
    simp only [chkLoop, remote, hres, ht, if_true]
  · intro ω adb pw mn s err mdl r rest e hres
    simp only [chkLoop, remote, hres]
  · intro ω adb pw mn s err mdl r rest t hres ht
    simp only [chkLoop, remote, hres, ht, Bool.false_eq_true, if_false]
  · intro ω c d mn r1 rest v0 v t1 hdb hd h0 h1 h2 ht1
    simp only [checkModelAccess,
      authenticate_ok_db ω c d v0 v hdb hd h0 h1, chkLoop, remote,
      List.length_cons, List.length_singleton, List.length_nil, h2, ht1,
      if_true, List.append_assoc, List.singleton_append, List.cons_append,
      List.nil_append]

/-- A server that authenticates but denies (falsy payload) every access
probe. -/
def srvDenyChk : Oracle := fun n _ =>
  if n = 0 then .ok (.str "14.0")
  else if n = 1 then .ok (.int 7)
  else .ok (.bool false)

/-- Witness for the amended C4 at a concrete server: right "read" raises,
right "write" is still probed and succeeds, and the invalid-credentials
error is reported; a falsy probe stops the loop at once. -/
theorem C4_access_loop_witness :
    chkLoop srvC4 (.str "db1") (some "p") "res.partner"
        ⟨{ cnD with uid := .int 7 },
         [RCall.version, RCall.auth (.str "db1") (some "u") (some "p")]⟩
        Option.none false ["read", "write"] =
      chkLoop srvC4 (.str "db1") (some "p") "res.partner"
        ⟨{ cnD with uid := .int 7 },
         [RCall.version, RCall.auth (.str "db1") (some "u") (some "p"),
          chkCall (.str "db1") (.int 7) (some "p") "res.partner" "read"]⟩
        (some invalidCredMsg) false ["write"] ∧
    chkLoop srvNoDb (.str "db1") (some "p") "res.partner"
        ⟨{ cnD with uid := .int 7 },
         [RCall.version, RCall.auth (.str "db1") (some "u") (some "p")]⟩
        Option.none false ["read", "write"] =
      ((some (permErrMsg "read"), false),
       ⟨{ cnD with uid := .int 7 },
        [RCall.version, RCall.auth (.str "db1") (some "u") (some "p"),
         chkCall (.str "db1") (.int 7) (some "p") "res.partner" "read"]⟩) ∧
    checkModelAccess srvDenyChk (mkSt cnD) "res.partner" ["read", "write"] =
      (.ok ⟨some (permErrMsg "read"), false, .str "db1"⟩,
       ⟨{ cnD with uid := .int 7 },
        [RCall.version, RCall.auth (.str "db1") (some "u") (some "p"),
         chkCall (.str "db1") (.int 7) (some "p") "res.partner"
           "read"]⟩) := by
  obtain ⟨hA, hB, hC, hD⟩ := C4_access_loop
  refine ⟨?_, ?_, ?_⟩
  · exact hB srvC4 (.str "db1") (some "p") "res.partner" _ Option.none false
      "read" ["write"] "Fault" rfl
  · exact hA srvNoDb (.str "db1") (some "p") "res.partner" _ Option.none
      false "read" ["write"] (.list []) rfl rfl
  · exact hD srvDenyChk cnD "db1" "res.partner" "read" ["write"]
      (.str "14.0") (.int 7) (.bool false) rfl (by decide) rfl rfl rfl rfl

/-- C5: the synthesis guard in create_record compares the fields argument
with the empty list, while the documented default argument is the empty
dict, so create_record("product.template", {}) sends the empty mapping to
the remote create call instead of the documented {"name": "New Product"};
the synthesized name is only produced for an (undocumented) empty-list
argument.  The code contradicts its own docstring here. -/
theorem C5_create_record_synthesis_bug :
    (create_record srvOK (mkSt cnD) (some "product.template")
        (.dict [])).2.trace.getLast? =
      some (RCall.executeKw (.str "db1") (.int 7) (some "p")
        "product.template" "create" (.list [.dict []]) []) ∧
    (create_record srvOK (mkSt cnD) (some "product.template")
        (.list [])).2.trace.getLast? =
      some (RCall.executeKw (.str "db1") (.int 7) (some "p")
        "product.template" "create"
        (.list [.list [.dict [("name", .str "New Product")]]]) []) ∧
    synthRecordName "product.template" = "New Product" ∧
    PyVal.dict [] ≠ PyVal.list [] :=
  ⟨rfl, rfl, rfl, fun h => PyVal.noConfusion h⟩

/-- The populated-ness of a primary result field, as the claimed envelope
invariant reads it: neither null nor zero. -/
def populated (v : PyVal) : Prop := v ≠ PyVal.none ∧ v ≠ PyVal.int 0

/-- The claimed invariant: exactly one of {error present, primary result
populated} holds for a result envelope. -/
def exactlyOne (env : Envelope) : Prop :=
  (env.error ≠ Option.none ∧ ¬ populated env.primary) ∨
  (env.error = Option.none ∧ populated env.primary)

/-- A server on which the count query legitimately reports zero matching
records. -/
def srvZero : Oracle := fun n _ =>
  if n = 0 then .ok (.str "14.0")
  else if n = 1 then .ok (.int 7)
  else if n = 2 then .ok (.bool true)
  else .ok (.int 0)

/-- C3 counterexample: a successful get_count whose count is legitimately
zero returns an envelope with a null error and an unpopulated (zero)
primary result, so the claimed exactly-one invariant fails on it. -/
theorem C3_exactly_one_counterexample :
    (get_count srvZero (mkSt cnD) (some "res.partner") (.list [])).1 =
      .ok ⟨Option.none, .int 0⟩ ∧
    ¬ exactlyOne ⟨Option.none, .int 0⟩ := by
  refine ⟨rfl, ?_⟩
  intro h
  rcases h with ⟨h1, _⟩ | ⟨_, h2⟩
  · exact h1 rfl
  · exact h2.2 rfl

/-- A returned envelope with a non-null error has a null-or-zero primary
result field (a raised exception returns no envelope at all). -/
def envOk (r : Except String Envelope × St) : Prop :=
  match r.1 with
  | .ok env => env.error ≠ Option.none →
      env.primary = PyVal.none ∨ env.primary = PyVal.int 0
  | .error _ => True

theorem envOk_lit (e : String) (Z : PyVal) (s : St)
    (hz : Z = PyVal.none ∨ Z = PyVal.int 0) :
    envOk (.ok ⟨some e, Z⟩, s) := by
  intro _
  exact hz

theorem envOk_wrap (rp : Except String PyVal × St) (Z : PyVal)
    (hz : Z = PyVal.none ∨ Z = PyVal.int 0) :
    envOk (match rp with
      | (.ok v, s3) => (.ok ⟨Option.none, v⟩, s3)
      | (.error e, s3) => (.ok ⟨some e, Z⟩, s3)) := by
  rcases rp with ⟨r, s3⟩
  cases r with
  | error e => exact envOk_lit e Z s3 hz
  | ok v => intro h; exact absurd rfl h

theorem envOk_succ (v : PyVal) (s : St) : envOk (.ok ⟨Option.none, v⟩, s) :=
  fun h => absurd rfl h

theorem envOk_wrap2 (rp : Except String PyVal × St) (P Z : PyVal)
    (hz : Z = PyVal.none ∨ Z = PyVal.int 0) :
    envOk (match rp with
      | (.ok _, s3) => (.ok ⟨Option.none, P⟩, s3)
      | (.error e, s3) => (.ok ⟨some e, Z⟩, s3)) := by
  rcases rp with ⟨r, s3⟩
  cases r with
  | error e => exact envOk_lit e Z s3 hz
  | ok v => exact envOk_succ P s3

theorem envOk_raise (e : String) (s : St) : envOk (.error e, s) := trivial

theorem envOk_tail (ω : Oracle) (adb idv : PyVal) (s4 : St)
    (ms : List PyVal) :
    envOk (match remote ω s4 (RCall.executeKw adb s4.conn.uid
        s4.conn.password "ir.model.fields" "create" (.list ms) []) with
      | (.ok _, s5) => (.ok ⟨Option.none, idv⟩, s5)
      | (.error e, s5) =>
        match remote ω s5 (unlinkCall adb s5.conn.uid s5.conn.password
            idv) with
        | (.ok _, s6) => (.ok ⟨some e, PyVal.none⟩, s6)
        | (.error e2, s6) => (.error e2, s6)) := by
  rcases hr6 : remote ω s4 (RCall.executeKw adb s4.conn.uid
      s4.conn.password "ir.model.fields" "create" (.list ms) [])
    with ⟨r6, s5⟩
  cases r6 with
  | ok v => exact envOk_succ idv s5
  | error e =>
    change envOk (match remote ω s5 (unlinkCall adb s5.conn.uid
        s5.conn.password idv) with
      | (.ok _, s6) => (.ok ⟨some e, PyVal.none⟩, s6)
      | (.error e2, s6) => (.error e2, s6))
    rcases hr7 : remote ω s5 (unlinkCall adb s5.conn.uid s5.conn.password
        idv) with ⟨r7, s6⟩
    cases r7 with
    | ok w => exact envOk_lit _ _ _ (Or.inl rfl)
    | error e2 => exact envOk_raise e2 s6

/-- C3 amended: for every public operation and every server behaviour,
whenever a returned envelope carries a non-null error its primary result
field is null or zero.  (The converse exclusivity fails: see the
counterexample — a successful count may legitimately be zero.) -/
theorem C3_error_implies_empty :
    (∀ (ω : Oracle) (s : St) (mname : Option String) (filt : PyVal)
       (off lim : Int), envOk (get_ids ω s mname filt off lim)) ∧
    (∀ (ω : Oracle) (s : St) (mname : Option String) (filt : PyVal)
       (off lim : Int) (fields : List PyVal),
       envOk (get_records ω s mname filt off lim fields)) ∧
    (∀ (ω : Oracle) (s : St) (mname : Option String) (filt : PyVal),
       envOk (get_count ω s mname filt)) ∧
    (∀ (ω : Oracle) (s : St) (mname : Option String)
       (attributes : List PyVal), envOk (get_fields ω s mname attributes)) ∧
    (∀ (ω : Oracle) (s : St) (mname : Option String) (fields : PyVal),
       envOk (create_record ω s mname fields)) ∧
    (∀ (ω : Oracle) (s : St) (mname : Option String) (ids : List PyVal)
       (fields : PyVal), envOk (update_record ω s mname ids fields)) ∧
    (∀ (ω : Oracle) (s : St) (mname : Option String) (ids : List PyVal),
       envOk (delete_record ω s mname ids)) ∧
    (∀ (ω : Oracle) (s : St) (mname : Option String) (fields : PyVal),
       envOk (create_model ω s mname fields)) := by
  refine ⟨?_, ?_, ?_, ?_, ?_, ?_, ?_, ?_⟩
  · intro ω s mname filt off lim
    unfold get_ids
    split
    · rcases hc : checkModelAccess ω s (mname.getD "") ["read"] with ⟨r, s2⟩
      cases r with
      | error e => simp [envOk, hc]
      | ok cur =>
        cases hce : cur.error with
        | some e => simp [envOk, hc, hce]
        | none =>
          cases hm : cur.model with
          | false => simp [envOk, hc, hce, hm]
          | true =>
            simp only [hc, hce, hm, if_true]
            exact envOk_wrap _ PyVal.none (Or.inl rfl)
    · exact envOk_lit _ _ _ (Or.inl rfl)
  · intro ω s mname filt off lim fields
    unfold get_records
    split
    · rcases hc : checkModelAccess ω s (mname.getD "") ["read"] with ⟨r, s2⟩
      cases r with
      | error e => simp [envOk, hc]
      | ok cur =>
        cases hce : cur.error with
        | some e => simp [envOk, hc, hce]
        | none =>
          cases hm : cur.model with
          | false => simp [envOk, hc, hce, hm]
          | true =>
            simp only [hc, hce, hm, if_true]
            exact envOk_wrap _ PyVal.none (Or.inl rfl)
    · exact envOk_lit _ _ _ (Or.inl rfl)
  · intro ω s mname filt
    unfold get_count
    split
    · rcases hc : checkModelAccess ω s (mname.getD "") ["read"] with ⟨r, s2⟩
      cases r with
      | error e => simp [envOk, hc]
      | ok cur =>
        cases hce : cur.error with
        | some e => simp [envOk, hc, hce]
        | none =>
          cases hm : cur.model with
          | false => simp [envOk, hc, hce, hm]
          | true =>
            simp only [hc, hce, hm, if_true]
            exact envOk_wrap _ PyVal.none (Or.inl rfl)
    · exact envOk_lit _ _ _ (Or.inl rfl)
  · intro ω s mname attributes
    unfold get_fields
    split
    · rcases hc : checkModelAccess ω s (mname.getD "") ["read"] with ⟨r, s2⟩
      cases r with
      | error e => simp [envOk, hc]
      | ok cur =>
        cases hce : cur.error with
        | some e => simp [envOk, hc, hce]
        | none =>
          cases hm : cur.model with
          | false => simp [envOk, hc, hce, hm]
          | true =>
            simp only [hc, hce, hm, if_true]
            exact envOk_wrap _ PyVal.none (Or.inl rfl)
    · exact envOk_lit _ _ _ (Or.inl rfl)
  · intro ω s mname fields
    unfold create_record
    split
    · rcases hc : checkModelAccess ω s (mname.getD "") ["read", "create"] with ⟨r, s2⟩
      cases r with
      | error e => simp [envOk, hc]
      | ok cur =>
        cases hce : cur.error with
        | some e => simp [envOk, hc, hce]
        | none =>
          cases hm : cur.model with
          | false => simp [envOk, hc, hce, hm]
          | true =>
            simp only [hc, hce, hm, if_true]
            exact envOk_wrap _ PyVal.none (Or.inl rfl)
    · exact envOk_lit _ _ _ (Or.inl rfl)
  · intro ω s mname ids fields
    unfold update_record
    split
    · rcases hc : checkModelAccess ω s (mname.getD "") ["read", "write"]
        with ⟨r, s2⟩
      cases r with
      | error e => simp [envOk, hc]
      | ok cur =>
        cases hce : cur.error with
        | some e => simp [envOk, hc, hce]
        | none =>
          cases hie : ids.isEmpty with
          | true => simp [envOk, hc, hce, hie]
          | false =>
            simp only [hc, hce, hie, Bool.false_eq_true, if_false]
            cases fields with
            | dict kvs =>
              cases kvs with
              | nil => exact envOk_succ _ _
              | cons p rest =>
                cases hm : cur.model with
                | false => simp [envOk, hm]
                | true =>
                  simp only [hm, if_true]
                  exact envOk_wrap2 _ (.list ids) PyVal.none (Or.inl rfl)
            | none =>
              cases hm : cur.model with
              | false => simp [envOk, hm]
              | true =>
                simp only [hm, if_true]
                exact envOk_wrap2 _ (.list ids) PyVal.none (Or.inl rfl)
            | bool b =>
              cases hm : cur.model with
              | false => simp [envOk, hm]
              | true =>
                simp only [hm, if_true]
                exact envOk_wrap2 _ (.list ids) PyVal.none (Or.inl rfl)
            | int n =>
              cases hm : cur.model with
              | false => simp [envOk, hm]
              | true =>
                simp only [hm, if_true]
                exact envOk_wrap2 _ (.list ids) PyVal.none (Or.inl rfl)
            | str st =>
              cases hm : cur.model with
              | false => simp [envOk, hm]
              | true =>
                simp only [hm, if_true]
                exact envOk_wrap2 _ (.list ids) PyVal.none (Or.inl rfl)
            | list xs =>
              cases hm : cur.model with
              | false => simp [envOk, hm]
              | true =>
                simp only [hm, if_true]
                exact envOk_wrap2 _ (.list ids) PyVal.none (Or.inl rfl)
    · exact envOk_lit _ _ _ (Or.inl rfl)
  · intro ω s mname ids
    unfold delete_record
    split
    · rcases hc : checkModelAccess ω s (mname.getD "") ["read", "unlink"]
        with ⟨r, s2⟩
      cases r with
      | error e => simp [envOk, hc]
      | ok cur =>
        cases hce : cur.error with
        | some e => simp [envOk, hc, hce]
        | none =>
          cases hie : ids.isEmpty with
          | true => simp [envOk, hc, hce, hie]
          | false =>
            cases hm : cur.model with
            | false => simp [envOk, hc, hce, hie, hm]
            | true =>
              simp only [hc, hce, hie, Bool.false_eq_true, if_false, hm,
                if_true]
              exact envOk_wrap2 _ (.int (ids.length : Int)) (.int 0)
                (Or.inr rfl)
    · exact envOk_lit _ _ _ (Or.inr rfl)
  · intro ω s mname fields
    unfold create_model
    split
    · rcases hc : checkModelAccess ω s "ir.model" ["read", "create", "unlink"]
        with ⟨r, s2⟩
      cases r with
      | error e => simp [envOk, hc]
      | ok cur =>
        cases hce : cur.error with
        | some e => simp [envOk, hc, hce]
        | none =>
          simp only [hc, hce]
          cases fields with
          | list fs =>
            cases hm : cur.model with
            | false => simp [envOk, hm]
            | true =>
              simp only [hm, if_true]
              rcases hr5 : remote ω s2 (RCall.executeKw cur.db s2.conn.uid
                  s2.conn.password "ir.model" "create"
                  (.list [.dict [("name", .str (mname.getD "")),
                    ("model", .str (techName (mname.getD ""))),
                    ("state", .str "manual")]]) []) with ⟨r5, s3⟩
              cases r5 with
              | error e => exact envOk_lit _ _ _ (Or.inl rfl)
              | ok idv =>
                cases hid : pyFalsy idv with
                | true => simp [envOk, hid]
                | false =>
                  cases hfe : fs.isEmpty with
                  | true => simp [envOk, hid, hfe]
                  | false =>
                    simp only [hid, hfe, Bool.false_eq_true, if_false]
                    rcases hfl : fieldLoop ω cur.db s3.conn.uid
                        s3.conn.password (techName (mname.getD "")) idv s3 0
                        fs with ⟨fres, s4⟩
                    cases fres with
                    | raised e => exact envOk_raise e s4
                    | badField => exact envOk_lit _ _ _ (Or.inl rfl)
                    | done ms => exact envOk_tail ω cur.db idv s4 ms
          | none => simp [envOk]
          | bool b => simp [envOk]
          | int n => simp [envOk]
          | str st => simp [envOk]
          | dict kvs => simp [envOk]
    · exact envOk_lit _ _ _ (Or.inl rfl)

/-- Witness for the amended C3: the access error reported by a server on
which the authentication attempt raises comes with a null primary field in
get_ids. -/
theorem C3_error_implies_empty_witness :
    PyVal.none = PyVal.none ∨ PyVal.none = PyVal.int 0 := by
  have h := C3_error_implies_empty.1 srvRaise1 (mkSt cnD)
    (some "res.partner") (.list []) 0 0
  rw [show get_ids srvRaise1 (mkSt cnD) (some "res.partner") (.list []) 0 0 =
    (.ok ⟨some authErrMsg, PyVal.none⟩,
     ⟨cnD, [RCall.version,
       RCall.auth (.str "db1") (some "u") (some "p")]⟩) from rfl] at h
  exact h (by simp)

/-- On a list of valid descriptors (as certified by mergeAll) the loop is
pure: it returns the merged list and issues no remote call. -/
theorem fieldLoop_done (ω : Oracle) (adb uidv : PyVal) (pw : Option String)
    (xn : String) (mid : PyVal) :
    ∀ (fs ms : List PyVal) (s : St) (i : Nat),
    mergeAll xn mid i fs = some ms →
    fieldLoop ω adb uidv pw xn mid s i fs = (.done ms, s) := by
  intro fs
  induction fs with
  | nil =>
    intro ms s i h
    simp only [mergeAll, Option.some.injEq] at h
    subst h
    rfl
  | cons f rest ih =>
    intro ms s i h
    cases f with
    | dict kvs =>
      simp only [mergeAll] at h
      cases hm : mergeField xn mid i kvs with
      | none => rw [hm] at h; simp at h
      | some m =>
        rw [hm] at h
        cases hr : mergeAll xn mid (i + 1) rest with
        | none => rw [hr] at h; simp at h
        | some ms2 =>
          rw [hr] at h
          simp only [Option.map, Option.some.injEq] at h
          subst h
          simp only [fieldLoop, hm]
          rw [ih ms2 s (i + 1) hr]
    | none => simp [mergeAll] at h
    | bool b => simp [mergeAll] at h
    | int n => simp [mergeAll] at h
    | str st => simp [mergeAll] at h
    | list xs => simp [mergeAll] at h

/-- When the descriptors up to index k merge cleanly and the element at
index k is not a dict, the loop reaches exactly that element, issues the
compensating unlink (and nothing else), and stops: descriptors after
index k are never examined — the result does not depend on them. -/
theorem fieldLoop_hits_bad (ω : Oracle) (adb uidv : PyVal)
    (pw : Option String) (xn : String) (mid : PyVal) :
    ∀ (pre : List PyVal) (bad : PyVal) (post : List PyVal) (s : St)
      (i : Nat),
    (mergeAll xn mid i pre).isSome →
    (∀ kvs, bad ≠ PyVal.dict kvs) →
    fieldLoop ω adb uidv pw xn mid s i (pre ++ bad :: post) =
      (match remote ω s (unlinkCall adb uidv pw mid) with
       | (.ok _, s2) => (FieldLoopRes.badField, s2)
       | (.error e, s2) => (FieldLoopRes.raised e, s2)) := by
  intro pre
  induction pre with
  | nil =>
    intro bad post s i hpre hbad
    cases bad with
    | dict kvs => exact absurd rfl (hbad kvs)
    | none => rfl
    | bool b => rfl
    | int n => rfl
    | str st => rfl
    | list xs => rfl
  | cons a rest ih =>
    intro bad post s i hpre hbad
    cases a with
    | dict kvs =>
      simp only [mergeAll] at hpre
      cases hm : mergeField xn mid i kvs with
      | none => rw [hm] at hpre; simp at hpre
      | some m =>
        rw [hm] at hpre
        have hrest : (mergeAll xn mid (i + 1) rest).isSome := by
          cases hr : mergeAll xn mid (i + 1) rest with
          | none => rw [hr] at hpre; simp at hpre
          | some ms2 => rfl
        simp only [List.cons_append, fieldLoop, hm, List.append_eq]
        rw [ih bad post s (i + 1) hrest hbad]
        rcases hresp : remote ω s (unlinkCall adb uidv pw mid) with ⟨r, s2⟩
        cases r with
        | ok w => rfl
        | error e => rfl
    | none => simp [mergeAll] at hpre
    | bool b => simp [mergeAll] at hpre
    | int n => simp [mergeAll] at hpre
    | str st => simp [mergeAll] at hpre
    | list xs => simp [mergeAll] at hpre

/-- C1: in create_model, a non-mapping descriptor at index k (after k
cleanly merging mappings) makes the connector create the model, then
delete it again with a compensating unlink of exactly that model id,
return the FormatError envelope with a null id, and stop: the trace —
which contains no ir.model.fields create call — is independent of every
descriptor after index k. -/
theorem C1_create_model_bad_descriptor (ω : Oracle) (c : Conn)
    (d mn : String) (v0 v t1 t2 t3 idv w : PyVal)
    (pre : List PyVal) (bad : PyVal) (post : List PyVal)
    (hdb : c.db = some d) (hd : d ≠ "")
    (h0 : ω 0 RCall.version = .ok v0)
    (h1 : ω 1 (RCall.auth (.str d) c.username c.password) = .ok v)
    (h2 : ω 2 (chkCall (.str d) v c.password "ir.model" "read") = .ok t1)
    (ht1 : pyFalsy t1 = false)
    (h3 : ω 3 (chkCall (.str d) v c.password "ir.model" "create") = .ok t2)
    (ht2 : pyFalsy t2 = false)
    (h4 : ω 4 (chkCall (.str d) v c.password "ir.model" "unlink") = .ok t3)
    (ht3 : pyFalsy t3 = false)
    (hmn : mn ≠ "")
    (h5 : ω 5 (RCall.executeKw (.str d) v c.password "ir.model" "create"
      (.list [.dict [("name", .str mn), ("model", .str (techName mn)),
        ("state", .str "manual")]]) []) = .ok idv)
    (hid : pyFalsy idv = false)
    (hpre : (mergeAll (techName mn) idv 0 pre).isSome)
    (hbad : ∀ kvs, bad ≠ PyVal.dict kvs)
    (h6 : ω 6 (unlinkCall (.str d) v c.password idv) = .ok w) :
    create_model ω (mkSt c) (some mn) (.list (pre ++ bad :: post)) =
      (.ok ⟨some fmtFieldMsg, PyVal.none⟩,
       ⟨{ c with uid := v },
        [RCall.version, RCall.auth (.str d) c.username c.password,
         chkCall (.str d) v c.password "ir.model" "read",
         chkCall (.str d) v c.password "ir.model" "create",
         chkCall (.str d) v c.password "ir.model" "unlink",
         RCall.executeKw (.str d) v c.password "ir.model" "create"
           (.list [.dict [("name", .str mn), ("model", .str (techName mn)),
             ("state", .str "manual")]]) [],
         unlinkCall (.str d) v c.password idv]⟩) ∧
    (∀ (adb2 uu : PyVal) (pw2 : Option String) (args : PyVal)
       (kw : List (String × PyVal)),
      RCall.executeKw adb2 uu pw2 "ir.model.fields" "create" args kw ∉
        (create_model ω (mkSt c) (some mn)
          (.list (pre ++ bad :: post))).2.trace) := by
  have hfe : (pre ++ bad :: post).isEmpty = false := by
    cases pre <;> rfl
  have hmain : create_model ω (mkSt c) (some mn)
      (.list (pre ++ bad :: post)) =
      (.ok ⟨some fmtFieldMsg, PyVal.none⟩,
       ⟨{ c with uid := v },
        [RCall.version, RCall.auth (.str d) c.username c.password,
         chkCall (.str d) v c.password "ir.model" "read",
         chkCall (.str d) v c.password "ir.model" "create",
         chkCall (.str d) v c.password "ir.model" "unlink",
         RCall.executeKw (.str d) v c.password "ir.model" "create"
           (.list [.dict [("name", .str mn), ("model", .str (techName mn)),
             ("state", .str "manual")]]) [],
         unlinkCall (.str d) v c.password idv]⟩) := by
    simp only [create_model, pyTruthyStr, hmn, bne_iff_ne, ne_eq,
      not_false_iff, if_true, Option.getD_some,
      access_ok3 ω c d "ir.model" "read" "create" "unlink" v0 v t1 t2 t3
        hdb hd h0 h1 h2 ht1 h3 ht2 h4 ht3,
      remote, List.length_cons, List.length_singleton, List.length_nil, h5,
      hid, Bool.false_eq_true, if_false, hfe,
      fieldLoop_hits_bad ω (.str d) v c.password (techName mn) idv pre bad
        post ⟨{ c with uid := v },
          [RCall.version, RCall.auth (.str d) c.username c.password,
           chkCall (.str d) v c.password "ir.model" "read",
           chkCall (.str d) v c.password "ir.model" "create",
           chkCall (.str d) v c.password "ir.model" "unlink",
           RCall.executeKw (.str d) v c.password "ir.model" "create"
             (.list [.dict [("name", .str mn),
               ("model", .str (techName mn)),
               ("state", .str "manual")]]) []]⟩ 0 hpre hbad,
      h6, List.append_assoc, List.singleton_append, List.cons_append,
      List.nil_append]
  refine ⟨hmain, ?_⟩
  intro adb2 uu pw2 args kw hmem
  rw [hmain] at hmem
  simp only [chkCall, unlinkCall] at hmem
  simp at hmem

theorem dictLookup_nil (k : String) :
    dictLookup [] k = Option.none := rfl

theorem dictLookup_cons (p : String × PyVal) (l : List (String × PyVal))
    (k : String) :
    dictLookup (p :: l) k = if p.1 == k then some p.2 else dictLookup l k := by
  unfold dictLookup
  simp only [List.find?]
  cases hpk : p.1 == k with
  | false => simp [hpk]
  | true => simp [hpk]

theorem dictLookup_append (l1 l2 : List (String × PyVal)) (k : String) :
    dictLookup (l1 ++ l2) k =
      match dictLookup l1 k with
      | some v => some v
      | Option.none => dictLookup l2 k := by
  induction l1 with
  | nil => simp [dictLookup_nil]
  | cons p rest ih =>
    rw [List.cons_append, dictLookup_cons, dictLookup_cons]
    cases hpk : p.1 == k with
    | true => simp
    | false => simp [ih]

theorem dictLookup_map_update (ov : List (String × PyVal)) (k : String) :
    ∀ (base : List (String × PyVal)),
    dictLookup (base.map (fun p =>
      match dictLookup ov p.1 with
      | some v => (p.1, v)
      | Option.none => p)) k =
      match dictLookup base k with
      | some w =>
        (match dictLookup ov k with
         | some v => some v
         | Option.none => some w)
      | Option.none => Option.none := by
  intro base
  induction base with
  | nil => simp [dictLookup_nil]
  | cons q rest ih =>
    rw [List.map_cons, dictLookup_cons, dictLookup_cons]
    have hfst : (match dictLookup ov q.1 with
        | some v => (q.1, v)
        | Option.none => q).1 = q.1 := by
      cases dictLookup ov q.1 <;> rfl
    rw [hfst]
    cases hqk : q.1 == k with
    | false => simp [ih]
    | true =>
      have hq : q.1 = k := eq_of_beq hqk
      simp only [if_true]
      rw [← hq]
      cases hov : dictLookup ov q.1 <;> simp [hov]

theorem dictLookup_filter_keep (g : String × PyVal → Bool) (k : String)
    (hkeep : ∀ a : String × PyVal, a.1 = k → g a = true) :
    ∀ (ov : List (String × PyVal)),
    dictLookup (ov.filter g) k = dictLookup ov k := by
  intro ov
  induction ov with
  | nil => rfl
  | cons a rest ih =>
    rw [List.filter_cons]
    cases hak : a.1 == k with
    | true =>
      have ha : a.1 = k := eq_of_beq hak
      rw [hkeep a ha]
      simp only [if_true]
      rw [dictLookup_cons, dictLookup_cons, hak]
      simp [ih]
    | false =>
      cases hg : g a with
      | true =>
        simp only [if_true]
        rw [dictLookup_cons, dictLookup_cons, hak]
        simp [ih]
      | false =>
        simp only [Bool.false_eq_true, if_false]
        rw [ih, dictLookup_cons, hak]
        simp

/-- dict.update lookup: a key found in the overriding dict takes its
value, anything else falls back to the base dict. -/
theorem dictLookup_update (base ov : List (String × PyVal)) (k : String) :
    dictLookup (dictUpdate base ov) k =
      match dictLookup ov k with
      | some v => some v
      | Option.none => dictLookup base k := by
  unfold dictUpdate
  rw [dictLookup_append, dictLookup_map_update]
  cases hbase : dictLookup base k with
  | some w => cases hov : dictLookup ov k <;> simp
  | none =>
    rw [dictLookup_filter_keep (fun p => (dictLookup base p.1).isNone) k
      (fun a ha => by
        show (dictLookup base a.1).isNone = true
        rw [ha, hbase]
        rfl)]
    cases hov : dictLookup ov k <;> simp [hbase]

theorem dictLookup_set_present (k : String) (v : PyVal) :
    ∀ (kvs : List (String × PyVal)), (dictLookup kvs k).isSome →
    dictLookup (dictSet kvs k v) k = some v := by
  have aux : ∀ (kvs : List (String × PyVal)), (dictLookup kvs k).isSome →
      dictLookup (kvs.map (fun p => if p.1 = k then (k, v) else p)) k =
        some v := by
    intro kvs
    induction kvs with
    | nil => intro h; simp [dictLookup_nil] at h
    | cons q rest ih =>
      intro h
      rw [List.map_cons, dictLookup_cons]
      by_cases hq : q.1 = k
      · simp [hq]
      · rw [dictLookup_cons] at h
        simp only [if_neg hq, beq_eq_false_iff_ne.mpr hq,
          Bool.false_eq_true, if_false] at h ⊢
        exact ih h
  intro kvs h
  unfold dictSet
  rw [if_pos h]
  exact aux kvs h

theorem dictLookup_set_ne (k : String) (v : PyVal) (k2 : String)
    (hne : k2 ≠ k) :
    ∀ (kvs : List (String × PyVal)),
    dictLookup (dictSet kvs k v) k2 = dictLookup kvs k2 := by
  have aux : ∀ (kvs : List (String × PyVal)),
      dictLookup (kvs.map (fun p => if p.1 = k then (k, v) else p)) k2 =
        dictLookup kvs k2 := by
    intro kvs
    induction kvs with
    | nil => rfl
    | cons q rest ih =>
      rw [List.map_cons, dictLookup_cons, dictLookup_cons]
      by_cases hq : q.1 = k
      · simp only [hq, if_true]
        have h1 : (k == k2) = false := beq_eq_false_iff_ne.mpr
          (fun h => hne h.symm)
        simp [h1, ih]
      · simp only [beq_eq_false_iff_ne.mpr hq, hq, if_false]
        cases hq2 : q.1 == k2 <;> simp [hq2, ih]
  intro kvs
  unfold dictSet
  cases hp : (dictLookup kvs k).isSome with
  | true =>
    simp only [if_true]
    exact aux kvs
  | false =>
    simp only [Bool.false_eq_true, if_false]
    rw [dictLookup_append]
    cases hk2 : dictLookup kvs k2 with
    | some w => simp
    | none =>
      simp only []
      rw [dictLookup_cons]
      have h1 : (k == k2) = false := beq_eq_false_iff_ne.mpr
        (fun h => hne h.symm)
      simp [h1, dictLookup_nil]

/-- A string whose first two characters are not "x_" fails the
`^(x_).+` test. -/
theorem xMatch_false (nm : String) (h : nm.toList.take 2 ≠ ['x', '_']) :
    xMatch nm = false := by
  unfold xMatch
  cases hl : nm.toList with
  | nil => rfl
  | cons a l1 =>
    cases l1 with
    | nil => rfl
    | cons b l2 =>
      cases l2 with
      | nil => rfl
      | cons cc l3 =>
        rw [hl] at h
        simp at h
        by_cases ha : a = 'x'
        · simp [beq_eq_false_iff_ne.mpr (h ha)]
        · simp [beq_eq_false_iff_ne.mpr ha]

/-- A server for the model-creation scenarios: model id 5, every other
call successful. -/
def srvC6 : Oracle := fun n _ =>
  if n = 0 then .ok (.str "14.0")
  else if n = 1 then .ok (.int 7)
  else if n ≤ 4 then .ok (.bool true)
  else if n = 5 then .ok (.int 5)
  else .ok (.int 77)

/-- C6 counterexample: a caller-supplied model_id (999) survives the
merge — `tmp_field.update(field)` lets the caller override the synthesized
defaults — so the descriptor submitted to the field-creation call carries
model_id 999 although the newly created model id is 5. -/
theorem C6_model_id_override_counterexample :
    (create_model srvC6 (mkSt cnD) (some "My Model")
        (.list [.dict [("model_id", .int 999)]])).2.trace.getLast? =
      some (RCall.executeKw (.str "db1") (.int 7) (some "p")
        "ir.model.fields" "create"
        (.list [.dict [("model_id", .int 999), ("state", .str "manual"),
          ("ttype", .str "char"), ("name", .str "x_my_model_field_0")]])
        []) ∧
    (create_model srvC6 (mkSt cnD) (some "My Model")
        (.list [.dict [("model_id", .int 999)]])).1 =
      .ok ⟨Option.none, .int 5⟩ ∧
    dictLookup [("model_id", .int 999), ("state", .str "manual"),
      ("ttype", .str "char"), ("name", .str "x_my_model_field_0")]
      "model_id" = some (.int 999) ∧
    PyVal.int 999 ≠ PyVal.int 5 :=
  ⟨rfl, rfl, rfl, by intro h; injection h with h2; omega⟩

/-- C6 amended: each submitted descriptor is the caller mapping merged
over the synthesized defaults {model_id: new id, state: manual,
ttype: char, name: <technical name>_field_<index>} — so model_id, state
and ttype equal the defaults whenever the caller mapping does not itself
supply those keys (a caller-supplied value overrides them); a caller-given
string name whose first two characters are not "x_" gets the prefix
prepended; a descriptor without a name gets the index-based default; and
the list handed to the ir.model.fields create call is exactly the merged
list. -/
theorem C6_create_model_field_defaults :
    (∀ (xn : String) (mid : PyVal) (i : Nat)
       (kvs m : List (String × PyVal)),
      mergeField xn mid i kvs = some m →
      (dictLookup kvs "model_id" = Option.none →
        dictLookup m "model_id" = some mid) ∧
      (dictLookup kvs "state" = Option.none →
        dictLookup m "state" = some (.str "manual")) ∧
      (dictLookup kvs "ttype" = Option.none →
        dictLookup m "ttype" = some (.str "char")) ∧
      (dictLookup kvs "name" = Option.none →
        dictLookup m "name" =
          some (.str (xn ++ "_field_" ++ toString i))) ∧
      (∀ nm, dictLookup kvs "name" = some (.str nm) →
        nm.toList.take 2 ≠ ['x', '_'] →
        dictLookup m "name" = some (.str ("x_" ++ nm))) ∧
      (∀ k2 v2, k2 ≠ "name" → dictLookup kvs k2 = some v2 →
        dictLookup m k2 = some v2)) ∧
    (∀ (xn : String) (mid : PyVal) (i : Nat)
       (kvs : List (String × PyVal)) (rest ms : List PyVal),
      mergeAll xn mid i (PyVal.dict kvs :: rest) = some ms →
      ∃ m tl, mergeField xn mid i kvs = some m ∧
        mergeAll xn mid (i + 1) rest = some tl ∧
        ms = PyVal.dict m :: tl) ∧
    (∀ (ω : Oracle) (c : Conn) (d mn : String) (v0 v t1 t2 t3 idv w : PyVal)
       (fs ms : List PyVal),
      c.db = some d → d ≠ "" →
      ω 0 RCall.version = .ok v0 →
      ω 1 (RCall.auth (.str d) c.username c.password) = .ok v →
      ω 2 (chkCall (.str d) v c.password "ir.model" "read") = .ok t1 →
      pyFalsy t1 = false →
      ω 3 (chkCall (.str d) v c.password "ir.model" "create") = .ok t2 →
      pyFalsy t2 = false →
      ω 4 (chkCall (.str d) v c.password "ir.model" "unlink") = .ok t3 →
      pyFalsy t3 = false →
      mn ≠ "" →
      ω 5 (RCall.executeKw (.str d) v c.password "ir.model" "create"
        (.list [.dict [("name", .str mn), ("model", .str (techName mn)),
          ("state", .str "manual")]]) []) = .ok idv →
      pyFalsy idv = false →
      mergeAll (techName mn) idv 0 fs = some ms →
      fs.isEmpty = false →
      ω 6 (RCall.executeKw (.str d) v c.password "ir.model.fields"
        "create" (.list ms) []) = .ok w →
      create_model ω (mkSt c) (some mn) (.list fs) =
        (.ok ⟨Option.none, idv⟩,
         ⟨{ c with uid := v },
          [RCall.version, RCall.auth (.str d) c.username c.password,
           chkCall (.str d) v c.password "ir.model" "read",
           chkCall (.str d) v c.password "ir.model" "create",
           chkCall (.str d) v c.password "ir.model" "unlink",
           RCall.executeKw (.str d) v c.password "ir.model" "create"
             (.list [.dict [("name", .str mn),
               ("model", .str (techName mn)),
               ("state", .str "manual")]]) [],
           RCall.executeKw (.str d) v c.password "ir.model.fields"
             "create" (.list ms) []]⟩)) := by
  refine ⟨?_, ?_, ?_⟩
  · intro xn mid i kvs m hm
    unfold mergeField at hm
    cases hname : dictLookup kvs "name" with
    | none =>
      rw [hname] at hm
      simp only [Option.some.injEq] at hm
      subst hm
      refine ⟨?_, ?_, ?_, ?_, ?_, ?_⟩
      · intro hmid
        rw [dictLookup_update, hmid]
        rfl
      · intro hst
        rw [dictLookup_update, hst]
        rfl
      · intro htt
        rw [dictLookup_update, htt]
        rfl
      · intro _
        rw [dictLookup_update, hname]
        rfl
      · intro nm hnm
        exact absurd hnm (by simp)
      · intro k2 v2 _ hv2
        rw [dictLookup_update, hv2]
    | some val =>
      cases val with
      | str nm0 =>
        rw [hname] at hm
        simp only [Option.some.injEq] at hm
        subst hm
        have hsome : (dictLookup kvs "name").isSome := by
          rw [hname]; rfl
        refine ⟨?_, ?_, ?_, ?_, ?_, ?_⟩
        · intro hmid
          rw [dictLookup_update, dictLookup_set_ne "name" _ "model_id"
            (by decide) kvs, hmid]
          rfl
        · intro hst
          rw [dictLookup_update, dictLookup_set_ne "name" _ "state"
            (by decide) kvs, hst]
          rfl
        · intro htt
          rw [dictLookup_update, dictLookup_set_ne "name" _ "ttype"
            (by decide) kvs, htt]
          rfl
        · intro h0
          exact absurd h0 (by simp)
        · intro nm hnm htake
          have hnm2 : nm0 = nm := by
            injection hnm with h2
            injection h2
          subst hnm2
          rw [xMatch_false nm0 htake]
          simp only [Bool.false_eq_true, if_false]
          rw [dictLookup_update, dictLookup_set_present "name" _ kvs hsome]
        · intro k2 v2 hk2 hv2
          rw [dictLookup_update, dictLookup_set_ne "name" _ k2 hk2 kvs,
            hv2]
      | none => rw [hname] at hm; exact absurd hm (by simp)
      | bool b => rw [hname] at hm; exact absurd hm (by simp)
      | int n => rw [hname] at hm; exact absurd hm (by simp)
      | list xs => rw [hname] at hm; exact absurd hm (by simp)
      | dict kvs2 => rw [hname] at hm; exact absurd hm (by simp)
  · intro xn mid i kvs rest ms h
    simp only [mergeAll] at h
    cases hm : mergeField xn mid i kvs with
    | none => rw [hm] at h; simp at h
    | some m =>
      rw [hm] at h
      cases hr : mergeAll xn mid (i + 1) rest with
      | none => rw [hr] at h; simp at h
      | some tl =>
        rw [hr] at h
        simp only [Option.map, Option.some.injEq] at h
        exact ⟨m, tl, rfl, rfl, h.symm⟩
  · intro ω c d mn v0 v t1 t2 t3 idv w fs ms hdb hd h0 h1 h2 ht1 h3 ht2 h4
      ht3 hmn h5 hid hms hfe h6
    simp only [create_model, pyTruthyStr, hmn, bne_iff_ne, ne_eq,
      not_false_iff, if_true, Option.getD_some,
      access_ok3 ω c d "ir.model" "read" "create" "unlink" v0 v t1 t2 t3
        hdb hd h0 h1 h2 ht1 h3 ht2 h4 ht3,
      remote, List.length_cons, List.length_singleton, List.length_nil, h5,
      hid, Bool.false_eq_true, if_false, hfe,
      fieldLoop_done ω (.str d) v c.password (techName mn) idv fs ms
        ⟨{ c with uid := v },
         [RCall.version, RCall.auth (.str d) c.username c.password,
          chkCall (.str d) v c.password "ir.model" "read",
          chkCall (.str d) v c.password "ir.model" "create",
          chkCall (.str d) v c.password "ir.model" "unlink",
          RCall.executeKw (.str d) v c.password "ir.model" "create"
            (.list [.dict [("name", .str mn),
              ("model", .str (techName mn)),
              ("state", .str "manual")]]) []]⟩ 0 hms,
      h6, List.append_assoc, List.singleton_append, List.cons_append,
      List.nil_append]

/-- A server for the bad-descriptor scenario: model id 5, every other
call successful. -/
def srvC1 : Oracle := fun n _ =>
  if n = 0 then .ok (.str "14.0")
  else if n = 1 then .ok (.int 7)
  else if n ≤ 4 then .ok (.bool true)
  else if n = 5 then .ok (.int 5)
  else .ok (.bool true)

/-- Witness for C1 at a concrete server: the non-mapping 3 sits at
index 1 after one valid mapping descriptor. -/
theorem C1_create_model_bad_descriptor_witness :
    create_model srvC1 (mkSt cnD) (some "My Model")
        (.list [.dict [], .int 3, .dict [("a", .int 1)]]) =
      (.ok ⟨some fmtFieldMsg, PyVal.none⟩,
       ⟨{ cnD with uid := .int 7 },
        [RCall.version, RCall.auth (.str "db1") (some "u") (some "p"),
         chkCall (.str "db1") (.int 7) (some "p") "ir.model" "read",
         chkCall (.str "db1") (.int 7) (some "p") "ir.model" "create",
         chkCall (.str "db1") (.int 7) (some "p") "ir.model" "unlink",
         RCall.executeKw (.str "db1") (.int 7) (some "p") "ir.model"
           "create" (.list [.dict [("name", .str "My Model"),
             ("model", .str (techName "My Model")),
             ("state", .str "manual")]]) [],
         unlinkCall (.str "db1") (.int 7) (some "p") (.int 5)]⟩) ∧
    RCall.executeKw (.str "db1") (.int 7) (some "p") "ir.model.fields"
        "create" (.list [.dict []]) [] ∉
      (create_model srvC1 (mkSt cnD) (some "My Model")
        (.list [.dict [], .int 3, .dict [("a", .int 1)]])).2.trace := by
  obtain ⟨hA, hB⟩ := C1_create_model_bad_descriptor srvC1 cnD "db1"
    "My Model" (.str "14.0") (.int 7) (.bool true) (.bool true) (.bool true)
    (.int 5) (.bool true) [.dict []] (.int 3) [.dict [("a", .int 1)]]
    rfl (by decide) rfl rfl rfl rfl rfl rfl rfl rfl (by decide) rfl rfl
    rfl (fun kvs h => PyVal.noConfusion h) rfl
  exact ⟨hA, hB (.str "db1") (.int 7) (some "p") (.list [.dict []]) []⟩

/-- Witness for the amended C6 at a concrete server and descriptor: the
caller supplies ttype and an unprefixed name; the merged descriptor keeps
the default model_id and state, overrides ttype, and prefixes the name. -/
theorem C6_create_model_field_defaults_witness :
    dictLookup [("model_id", .int 5), ("state", .str "manual"),
        ("ttype", .str "text"), ("name", .str "x_color")] "model_id" =
      some (.int 5) ∧
    dictLookup [("model_id", .int 5), ("state", .str "manual"),
        ("ttype", .str "text"), ("name", .str "x_color")] "state" =
      some (.str "manual") ∧
    dictLookup [("model_id", .int 5), ("state", .str "manual"),
        ("ttype", .str "text"), ("name", .str "x_color")] "name" =
      some (.str ("x_" ++ "color")) ∧
    dictLookup [("model_id", .int 5), ("state", .str "manual"),
        ("ttype", .str "text"), ("name", .str "x_color")] "ttype" =
      some (.str "text") ∧
    create_model srvC6 (mkSt cnD) (some "My Model")
        (.list [.dict [("ttype", .str "text"), ("name", .str "color")]]) =
      (.ok ⟨Option.none, .int 5⟩,
       ⟨{ cnD with uid := .int 7 },
        [RCall.version, RCall.auth (.str "db1") (some "u") (some "p"),
         chkCall (.str "db1") (.int 7) (some "p") "ir.model" "read",
         chkCall (.str "db1") (.int 7) (some "p") "ir.model" "create",
         chkCall (.str "db1") (.int 7) (some "p") "ir.model" "unlink",
         RCall.executeKw (.str "db1") (.int 7) (some "p") "ir.model"
           "create" (.list [.dict [("name", .str "My Model"),
             ("model", .str (techName "My Model")),
             ("state", .str "manual")]]) [],
         RCall.executeKw (.str "db1") (.int 7) (some "p") "ir.model.fields"
           "create" (.list [.dict [("model_id", .int 5),
             ("state", .str "manual"), ("ttype", .str "text"),
             ("name", .str "x_color")]]) []]⟩) := by
  obtain ⟨hA, hU, hB⟩ := C6_create_model_field_defaults
  have hmf : mergeField "x_my_model" (.int 5) 0
      [("ttype", .str "text"), ("name", .str "color")] =
      some [("model_id", .int 5), ("state", .str "manual"),
        ("ttype", .str "text"), ("name", .str "x_color")] := rfl
  obtain ⟨p1, p2, p3, p4, p5, p6⟩ := hA "x_my_model" (.int 5) 0
    [("ttype", .str "text"), ("name", .str "color")]
    [("model_id", .int 5), ("state", .str "manual"),
     ("ttype", .str "text"), ("name", .str "x_color")] hmf
  refine ⟨p1 rfl, p2 rfl, p5 "color" rfl (by decide), ?_, ?_⟩
  · exact p6 "ttype" (.str "text") (by decide) rfl
  · exact hB srvC6 cnD "db1" "My Model" (.str "14.0") (.int 7) (.bool true)
      (.bool true) (.bool true) (.int 5) (.int 77)
      [.dict [("ttype", .str "text"), ("name", .str "color")]]
      [.dict [("model_id", .int 5), ("state", .str "manual"),
        ("ttype", .str "text"), ("name", .str "x_color")]]
      rfl (by decide) rfl rfl rfl rfl rfl rfl rfl rfl (by decide) rfl rfl
      rfl rfl rfl

/-- With a configured database name, `_authenticate` never lets an
exception escape (the only escape path is database enumeration). -/
theorem authenticate_noRaise (ω : Oracle) (s : St) (d : String)
    (hdb : s.conn.db = some d) (hd : d ≠ "") :
    ∃ r s2, authenticate ω s = (.ok r, s2) := by
  simp only [authenticate, createConnection, remote]
  cases h0 : ω s.trace.length RCall.version with
  | error e => exact ⟨_, _, rfl⟩
  | ok v0 =>
    simp only [hdb, hd, if_neg, if_false]
    cases h1 : ω (s.trace ++ [RCall.version]).length
        (RCall.auth (.str d) s.conn.username s.conn.password) with
    | ok v => exact ⟨_, _, rfl⟩
    | error e => exact ⟨_, _, rfl⟩

/-- With a configured database name, `_check_model_access` never lets an
exception escape. -/
theorem checkModelAccess_noRaise (ω : Oracle) (s : St) (d mn : String)
    (scope : List String) (hdb : s.conn.db = some d) (hd : d ≠ "") :
    ∃ cur s2, checkModelAccess ω s mn scope = (.ok cur, s2) := by
  obtain ⟨r, s2, hau⟩ := authenticate_noRaise ω s d hdb hd
  simp only [checkModelAccess, hau]
  rcases r with ⟨oe, adb⟩
  cases oe with
  | some e => exact ⟨_, _, rfl⟩
  | none =>
    rcases hcl : chkLoop ω adb s2.conn.password mn s2 Option.none false
        scope with ⟨⟨err, mdl⟩, s3⟩
    exact ⟨_, _, rfl⟩

theorem wrap_no_raise (rp : Except String PyVal × St) :
    ∃ env s3, ((match rp with
      | (.ok v, s3) => (Except.ok (⟨Option.none, v⟩ : Envelope), s3)
      | (.error e, s3) => (.ok ⟨some e, PyVal.none⟩, s3)) :
      Except String Envelope × St) = (.ok env, s3) := by
  rcases rp with ⟨r, s3⟩
  cases r with
  | ok v => exact ⟨_, _, rfl⟩
  | error e => exact ⟨_, _, rfl⟩

theorem wrap2_no_raise (rp : Except String PyVal × St) (P Z : PyVal) :
    ∃ env s3, ((match rp with
      | (.ok _, s3) => (Except.ok (⟨Option.none, P⟩ : Envelope), s3)
      | (.error e, s3) => (.ok ⟨some e, Z⟩, s3)) :
      Except String Envelope × St) = (.ok env, s3) := by
  rcases rp with ⟨r, s3⟩
  cases r with
  | ok v => exact ⟨_, _, rfl⟩
  | error e => exact ⟨_, _, rfl⟩

/-- When every descriptor is a mapping whose name value (if any) is a
string, and the server's unlink endpoint never faults, the descriptor
loop cannot end in an escaping exception. -/
theorem fieldLoop_no_raise (ω : Oracle) (adb uidv : PyVal)
    (pw : Option String) (xn : String) (mid : PyVal) :
    ∀ (fs : List PyVal) (s : St) (i : Nat),
    (∀ kvs v, PyVal.dict kvs ∈ fs → dictLookup kvs "name" = some v →
      ∃ snm, v = PyVal.str snm) →
    (∀ (n : Nat) (a u : PyVal) (pw2 : Option String) (args : PyVal),
      ∃ w, ω n (RCall.executeKw a u pw2 "ir.model" "unlink" args []) =
        .ok w) →
    ∃ res s4, fieldLoop ω adb uidv pw xn mid s i fs = (res, s4) ∧
      ∀ e, res ≠ FieldLoopRes.raised e := by
  intro fs
  induction fs with
  | nil =>
    intro s i _ _
    exact ⟨.done [], s, rfl, fun e h => FieldLoopRes.noConfusion h⟩
  | cons f rest ih =>
    intro s i hnames hunl
    cases f with
    | dict kvs =>
      cases hm : mergeField xn mid i kvs with
      | some m =>
        obtain ⟨res, s4, hfl, hres⟩ := ih s (i + 1)
          (fun kvs2 v hmem hv => hnames kvs2 v (by simp [hmem]) hv) hunl
        simp only [fieldLoop, hm, hfl]
        cases res with
        | done ms => exact ⟨_, _, rfl, fun e h => FieldLoopRes.noConfusion h⟩
        | badField => exact ⟨_, _, rfl, fun e h => FieldLoopRes.noConfusion h⟩
        | raised e => exact absurd rfl (hres e)
      | none =>
        exfalso
        unfold mergeField at hm
        cases hn : dictLookup kvs "name" with
        | none => rw [hn] at hm; exact Option.noConfusion hm
        | some val =>
          obtain ⟨snm, hsnm⟩ := hnames kvs val (by simp) hn
          subst hsnm
          rw [hn] at hm
          exact Option.noConfusion hm
    | none =>
      obtain ⟨w, hw⟩ := hunl s.trace.length adb uidv pw (.list [mid])
      simp only [fieldLoop, remote, unlinkCall, hw]
      exact ⟨_, _, rfl, fun e h => FieldLoopRes.noConfusion h⟩
    | bool b =>
      obtain ⟨w, hw⟩ := hunl s.trace.length adb uidv pw (.list [mid])
      simp only [fieldLoop, remote, unlinkCall, hw]
      exact ⟨_, _, rfl, fun e h => FieldLoopRes.noConfusion h⟩
    | int n =>
      obtain ⟨w, hw⟩ := hunl s.trace.length adb uidv pw (.list [mid])
      simp only [fieldLoop, remote, unlinkCall, hw]
      exact ⟨_, _, rfl, fun e h => FieldLoopRes.noConfusion h⟩
    | str st =>
      obtain ⟨w, hw⟩ := hunl s.trace.length adb uidv pw (.list [mid])
      simp only [fieldLoop, remote, unlinkCall, hw]
      exact ⟨_, _, rfl, fun e h => FieldLoopRes.noConfusion h⟩
    | list xs =>
      obtain ⟨w, hw⟩ := hunl s.trace.length adb uidv pw (.list [mid])
      simp only [fieldLoop, remote, unlinkCall, hw]
      exact ⟨_, _, rfl, fun e h => FieldLoopRes.noConfusion h⟩

theorem tail_no_raise (ω : Oracle) (adb idv : PyVal) (s4 : St)
    (ms : List PyVal)
    (hunl : ∀ (n : Nat) (a u : PyVal) (pw2 : Option String) (args : PyVal),
      ∃ w, ω n (RCall.executeKw a u pw2 "ir.model" "unlink" args []) =
        .ok w) :
    ∃ env s2, ((match remote ω s4 (RCall.executeKw adb s4.conn.uid
        s4.conn.password "ir.model.fields" "create" (.list ms) []) with
      | (.ok _, s5) => (Except.ok (⟨Option.none, idv⟩ : Envelope), s5)
      | (.error e, s5) =>
        match remote ω s5 (unlinkCall adb s5.conn.uid s5.conn.password
            idv) with
        | (.ok _, s6) => (.ok ⟨some e, PyVal.none⟩, s6)
        | (.error e2, s6) => (.error e2, s6)) :
      Except String Envelope × St) = (.ok env, s2) := by
  rcases hr6 : remote ω s4 (RCall.executeKw adb s4.conn.uid
      s4.conn.password "ir.model.fields" "create" (.list ms) [])
    with ⟨r6, s5⟩
  cases r6 with
  | ok v => exact ⟨_, _, rfl⟩
  | error e =>
    change ∃ env s2, ((match remote ω s5 (unlinkCall adb s5.conn.uid
        s5.conn.password idv) with
      | (.ok _, s6) => (Except.ok (⟨some e, PyVal.none⟩ : Envelope), s6)
      | (.error e2, s6) => (.error e2, s6)) :
      Except String Envelope × St) = (.ok env, s2)
    obtain ⟨w, hw⟩ := hunl s5.trace.length adb s5.conn.uid s5.conn.password
      (.list [idv])
    simp only [remote, unlinkCall, hw]
    exact ⟨_, _, rfl⟩

/-- A server on which the bulk field creation raises and the compensating
unlink raises as well. -/
def srvC9 : Oracle := fun n _ =>
  if n = 0 then .ok (.str "14.0")
  else if n = 1 then .ok (.int 7)
  else if n ≤ 4 then .ok (.bool true)
  else if n = 5 then .ok (.int 5)
  else if n = 6 then .error "Fault A"
  else .error "Fault B"

/-- C9 counterexample: the ir.model.fields create raises ("Fault A"), the
compensating unlink — issued outside any try block — raises "Fault B",
and create_model lets that raw transport fault escape to the caller
instead of wrapping it in an envelope. -/
theorem C9_raw_exception_escape_counterexample :
    (create_model srvC9 (mkSt cnD) (some "My Model")
        (.list [.dict []])).1 = .error "Fault B" ∧
    srvC9 6 (RCall.executeKw (.str "db1") (.int 7) (some "p")
      "ir.model.fields" "create" (.list [.dict [("model_id", .int 5),
        ("state", .str "manual"), ("ttype", .str "char"),
        ("name", .str "x_my_model_field_0")]]) []) = .error "Fault A" ∧
    srvC9 7 (unlinkCall (.str "db1") (.int 7) (some "p") (.int 5)) =
      .error "Fault B" := ⟨rfl, rfl, rfl⟩

/-- C9 amended: with a configured database name, the seven data
operations wrap every remote fault into the envelope and never raise; for
create_model the same holds provided the descriptors carry only
string-valued names and the server's ir.model unlink endpoint (used by
the compensating deletes, which run outside any try block) does not
fault.  Exceptions escape only through database enumeration, through a
faulting compensating unlink, or through a non-string name value. -/
theorem C9_fault_wrapping :
    (∀ (ω : Oracle) (c : Conn) (d : String) (mname : Option String)
       (filt : PyVal) (off lim : Int), c.db = some d → d ≠ "" →
      ∃ env s2, get_ids ω (mkSt c) mname filt off lim = (.ok env, s2)) ∧
    (∀ (ω : Oracle) (c : Conn) (d : String) (mname : Option String)
       (filt : PyVal) (off lim : Int) (fields : List PyVal),
      c.db = some d → d ≠ "" →
      ∃ env s2, get_records ω (mkSt c) mname filt off lim fields =
        (.ok env, s2)) ∧
    (∀ (ω : Oracle) (c : Conn) (d : String) (mname : Option String)
       (filt : PyVal), c.db = some d → d ≠ "" →
      ∃ env s2, get_count ω (mkSt c) mname filt = (.ok env, s2)) ∧
    (∀ (ω : Oracle) (c : Conn) (d : String) (mname : Option String)
       (attributes : List PyVal), c.db = some d → d ≠ "" →
      ∃ env s2, get_fields ω (mkSt c) mname attributes = (.ok env, s2)) ∧
    (∀ (ω : Oracle) (c : Conn) (d : String) (mname : Option String)
       (fields : PyVal), c.db = some d → d ≠ "" →
      ∃ env s2, create_record ω (mkSt c) mname fields = (.ok env, s2)) ∧
    (∀ (ω : Oracle) (c : Conn) (d : String) (mname : Option String)
       (ids : List PyVal) (fields : PyVal), c.db = some d → d ≠ "" →
      ∃ env s2, update_record ω (mkSt c) mname ids fields =
        (.ok env, s2)) ∧
    (∀ (ω : Oracle) (c : Conn) (d : String) (mname : Option String)
       (ids : List PyVal), c.db = some d → d ≠ "" →
      ∃ env s2, delete_record ω (mkSt c) mname ids = (.ok env, s2)) ∧
    (∀ (ω : Oracle) (c : Conn) (d : String) (mname : Option String)
       (fields : PyVal), c.db = some d → d ≠ "" →
      (∀ (fs : List PyVal) (kvs : List (String × PyVal)) (v : PyVal),
        fields = .list fs → PyVal.dict kvs ∈ fs →
        dictLookup kvs "name" = some v → ∃ snm, v = PyVal.str snm) →
      (∀ (n : Nat) (a u : PyVal) (pw2 : Option String) (args : PyVal),
        ∃ w, ω n (RCall.executeKw a u pw2 "ir.model" "unlink" args []) =
          .ok w) →
      ∃ env s2, create_model ω (mkSt c) mname fields = (.ok env, s2)) := by
  refine ⟨?_, ?_, ?_, ?_, ?_, ?_, ?_, ?_⟩
  · intro ω c d mname filt off lim hdb hd
    by_cases hmn : pyTruthyStr mname = true
    · obtain ⟨cur, s2, hc⟩ := checkModelAccess_noRaise ω (mkSt c) d
        (mname.getD "") ["read"] hdb hd
      simp only [get_ids, hmn, if_true, hc]
      cases hce : cur.error with
      | some e => exact ⟨_, _, rfl⟩
      | none =>
        cases hm2 : cur.model with
        | false => simp only [hce, hm2]; exact ⟨_, _, rfl⟩
        | true =>
          simp only [hce, hm2, if_true]
          exact wrap_no_raise _
    · simp only [get_ids, hmn, Bool.false_eq_true, if_false]
      exact ⟨_, _, rfl⟩
  · intro ω c d mname filt off lim fields hdb hd
    by_cases hmn : pyTruthyStr mname = true
    · obtain ⟨cur, s2, hc⟩ := checkModelAccess_noRaise ω (mkSt c) d
        (mname.getD "") ["read"] hdb hd
      simp only [get_records, hmn, if_true, hc]
      cases hce : cur.error with
      | some e => exact ⟨_, _, rfl⟩
      | none =>
        cases hm2 : cur.model with
        | false => simp only [hce, hm2]; exact ⟨_, _, rfl⟩
        | true =>
          simp only [hce, hm2, if_true]
          exact wrap_no_raise _
    · simp only [get_records, hmn, Bool.false_eq_true, if_false]
      exact ⟨_, _, rfl⟩
  · intro ω c d mname filt hdb hd
    by_cases hmn : pyTruthyStr mname = true
    · obtain ⟨cur, s2, hc⟩ := checkModelAccess_noRaise ω (mkSt c) d
        (mname.getD "") ["read"] hdb hd
      simp only [get_count, hmn, if_true, hc]
      cases hce : cur.error with
      | some e => exact ⟨_, _, rfl⟩
      | none =>
        cases hm2 : cur.model with
        | false => simp only [hce, hm2]; exact ⟨_, _, rfl⟩
        | true =>
          simp only [hce, hm2, if_true]
          exact wrap_no_raise _
    · simp only [get_count, hmn, Bool.false_eq_true, if_false]
      exact ⟨_, _, rfl⟩
  · intro ω c d mname attributes hdb hd
    by_cases hmn : pyTruthyStr mname = true
    · obtain ⟨cur, s2, hc⟩ := checkModelAccess_noRaise ω (mkSt c) d
        (mname.getD "") ["read"] hdb hd
      simp only [get_fields, hmn, if_true, hc]
      cases hce : cur.error with
      | some e => exact ⟨_, _, rfl⟩
      | none =>
        cases hm2 : cur.model with
        | false => simp only [hce, hm2]; exact ⟨_, _, rfl⟩
        | true =>
          simp only [hce, hm2, if_true]
          exact wrap_no_raise _
    · simp only [get_fields, hmn, Bool.false_eq_true, if_false]
      exact ⟨_, _, rfl⟩
  · intro ω c d mname fields hdb hd
    by_cases hmn : pyTruthyStr mname = true
    · obtain ⟨cur, s2, hc⟩ := checkModelAccess_noRaise ω (mkSt c) d
        (mname.getD "") ["read", "create"] hdb hd
      simp only [create_record, hmn, if_true, hc]
      cases hce : cur.error with
      | some e => exact ⟨_, _, rfl⟩
      | none =>
        cases hm2 : cur.model with
        | false => simp only [hce, hm2]; exact ⟨_, _, rfl⟩
        | true =>
          simp only [hce, hm2, if_true]
          exact wrap_no_raise _
    · simp only [create_record, hmn, Bool.false_eq_true, if_false]
      exact ⟨_, _, rfl⟩
  · intro ω c d mname ids fields hdb hd
    by_cases hmn : pyTruthyStr mname = true
    · obtain ⟨cur, s2, hc⟩ := checkModelAccess_noRaise ω (mkSt c) d
        (mname.getD "") ["read", "write"] hdb hd
      simp only [update_record, hmn, if_true, hc]
      cases hce : cur.error with
      | some e => exact ⟨_, _, rfl⟩
      | none =>
        cases hie : ids.isEmpty with
        | true => simp only [hce, hie, if_true]; exact ⟨_, _, rfl⟩
        | false =>
          simp only [hce, hie, Bool.false_eq_true, if_false]
          cases hm2 : cur.model with
          | false =>
            cases fields with
            | dict kvs =>
              cases kvs with
              | nil => exact ⟨_, _, rfl⟩
              | cons p rest => simp only [hm2]; exact ⟨_, _, rfl⟩
            | none => simp only [hm2]; exact ⟨_, _, rfl⟩
            | bool b => simp only [hm2]; exact ⟨_, _, rfl⟩
            | int n => simp only [hm2]; exact ⟨_, _, rfl⟩
            | str st => simp only [hm2]; exact ⟨_, _, rfl⟩
            | list xs => simp only [hm2]; exact ⟨_, _, rfl⟩
          | true =>
            cases fields with
            | dict kvs =>
              cases kvs with
              | nil => exact ⟨_, _, rfl⟩
              | cons p rest =>
                simp only [hm2, if_true]
                exact wrap2_no_raise _ (.list ids) PyVal.none
            | none =>
              simp only [hm2, if_true]
              exact wrap2_no_raise _ (.list ids) PyVal.none
            | bool b =>
              simp only [hm2, if_true]
              exact wrap2_no_raise _ (.list ids) PyVal.none
            | int n =>
              simp only [hm2, if_true]
              exact wrap2_no_raise _ (.list ids) PyVal.none
            | str st =>
              simp only [hm2, if_true]
              exact wrap2_no_raise _ (.list ids) PyVal.none
            | list xs =>
              simp only [hm2, if_true]
              exact wrap2_no_raise _ (.list ids) PyVal.none
    · simp only [update_record, hmn, Bool.false_eq_true, if_false]
      exact ⟨_, _, rfl⟩
  · intro ω c d mname ids hdb hd
    by_cases hmn : pyTruthyStr mname = true
    · obtain ⟨cur, s2, hc⟩ := checkModelAccess_noRaise ω (mkSt c) d
        (mname.getD "") ["read", "unlink"] hdb hd
      simp only [delete_record, hmn, if_true, hc]
      cases hce : cur.error with
      | some e => exact ⟨_, _, rfl⟩
      | none =>
        cases hie : ids.isEmpty with
        | true => simp only [hce, hie, if_true]; exact ⟨_, _, rfl⟩
        | false =>
          cases hm2 : cur.model with
          | false => simp only [hce, hie, hm2]; exact ⟨_, _, rfl⟩
          | true =>
            simp only [hce, hie, Bool.false_eq_true, if_false, hm2,
              if_true]
            exact wrap2_no_raise _ (.int (ids.length : Int)) (.int 0)
    · simp only [delete_record, hmn, Bool.false_eq_true, if_false]
      exact ⟨_, _, rfl⟩
  · intro ω c d mname fields hdb hd hnames hunl
    by_cases hmn : pyTruthyStr mname = true
    · obtain ⟨cur, s2, hc⟩ := checkModelAccess_noRaise ω (mkSt c) d
        "ir.model" ["read", "create", "unlink"] hdb hd
      simp only [create_model, hmn, if_true, hc]
      cases hce : cur.error with
      | some e => exact ⟨_, _, rfl⟩
      | none =>
        simp only [hce]
        cases fields with
        | list fs =>
          cases hm2 : cur.model with
          | false => exact ⟨_, _, rfl⟩
          | true =>
            simp only [hm2, if_true]
            rcases hr5 : remote ω s2 (RCall.executeKw cur.db s2.conn.uid
                s2.conn.password "ir.model" "create"
                (.list [.dict [("name", .str (mname.getD "")),
                  ("model", .str (techName (mname.getD ""))),
                  ("state", .str "manual")]]) []) with ⟨r5, s3⟩
            cases r5 with
            | error e => exact ⟨_, _, rfl⟩
            | ok idv =>
              cases hid : pyFalsy idv with
              | true => simp only [hid, if_true]; exact ⟨_, _, rfl⟩
              | false =>
                cases hfe : fs.isEmpty with
                | true =>
                  simp only [hid, hfe, Bool.false_eq_true, if_false,
                    if_true]
                  exact ⟨_, _, rfl⟩
                | false =>
                  simp only [hid, hfe, Bool.false_eq_true, if_false]
                  obtain ⟨res, s4, hfl, hres⟩ := fieldLoop_no_raise ω
                    cur.db s3.conn.uid s3.conn.password
                    (techName (mname.getD "")) idv fs s3 0
                    (fun kvs v hmem hv => hnames fs kvs v rfl hmem hv) hunl
                  rw [hfl]
                  cases res with
                  | raised e => exact absurd rfl (hres e)
                  | badField => exact ⟨_, _, rfl⟩
                  | done ms => exact tail_no_raise ω cur.db idv s4 ms hunl
        | none => exact ⟨_, _, rfl⟩
        | bool b => exact ⟨_, _, rfl⟩
        | int n => exact ⟨_, _, rfl⟩
        | str st => exact ⟨_, _, rfl⟩
        | dict kvs => exact ⟨_, _, rfl⟩
    · simp only [create_model, hmn, Bool.false_eq_true, if_false]
      exact ⟨_, _, rfl⟩

/-- Witness for the amended C9: on a server that never faults on unlink,
every operation (called with a configured database) returns an envelope
rather than raising. -/
theorem C9_fault_wrapping_witness :
    (∃ env s2, get_ids srvOK (mkSt cnD) (some "res.partner") (.list []) 0 0
      = (.ok env, s2)) ∧
    (∃ env s2, get_records srvOK (mkSt cnD) (some "res.partner")
      (.list []) 0 0 [] = (.ok env, s2)) ∧
    (∃ env s2, get_count srvOK (mkSt cnD) (some "res.partner") (.list [])
      = (.ok env, s2)) ∧
    (∃ env s2, get_fields srvOK (mkSt cnD) (some "res.partner") []
      = (.ok env, s2)) ∧
    (∃ env s2, create_record srvOK (mkSt cnD) (some "res.partner")
      (.dict []) = (.ok env, s2)) ∧
    (∃ env s2, update_record srvOK (mkSt cnD) (some "res.partner")
      [.int 1] (.dict [("name", .str "n")]) = (.ok env, s2)) ∧
    (∃ env s2, delete_record srvOK (mkSt cnD) (some "res.partner")
      [.int 1] = (.ok env, s2)) ∧
    (∃ env s2, create_model srvOK (mkSt cnD) (some "My Model")
      (.list [.dict []]) = (.ok env, s2)) := by
  obtain ⟨p1, p2, p3, p4, p5, p6, p7, p8⟩ := C9_fault_wrapping
  have hunl : ∀ (n : Nat) (a u : PyVal) (pw2 : Option String)
      (args : PyVal),
      ∃ w, srvOK n (RCall.executeKw a u pw2 "ir.model" "unlink" args []) =
        .ok w := by
    intro n a u pw2 args
    unfold srvOK
    repeat' split
    all_goals exact ⟨_, rfl⟩
  refine ⟨p1 srvOK cnD "db1" (some "res.partner") (.list []) 0 0 rfl
      (by decide),
    p2 srvOK cnD "db1" (some "res.partner") (.list []) 0 0 [] rfl
      (by decide),
    p3 srvOK cnD "db1" (some "res.partner") (.list []) rfl (by decide),
    p4 srvOK cnD "db1" (some "res.partner") [] rfl (by decide),
    p5 srvOK cnD "db1" (some "res.partner") (.dict []) rfl (by decide),
    p6 srvOK cnD "db1" (some "res.partner") [.int 1]
      (.dict [("name", .str "n")]) rfl (by decide),
    p7 srvOK cnD "db1" (some "res.partner") [.int 1] rfl (by decide),
    p8 srvOK cnD "db1" (some "My Model") (.list [.dict []]) rfl
      (by decide) ?_ hunl⟩
  intro fs kvs v hf hmem hv
  injection hf with h
  subst h
  simp at hmem
  subst hmem
  exact Option.noConfusion hv
